import Mathlib

/-!
Verification of the deterministic example-sentence synthesis engine of
`tools/build_vocab_master.py` (and the validation predicate of
`tools/llm_expand_examples.py`), via a shallow embedding: Python strings
are Lean `String`s (sequences of Unicode scalar values, matching Python's
code-point strings for this code base), bytes are `Nat`s below 256, and
every operation used by the engine (`in`, `str.replace`, `str.strip`,
`str.rstrip`, `str.endswith`, `str.lower`, `hashlib.sha256`,
`int.from_bytes`) is given an executable Lean model.
-/

namespace JpVocab

set_option maxRecDepth 8000

/-! ## Python string primitives -/

/-- The characters Python's default `str.strip()` removes: the usual ASCII
whitespace plus the common Unicode spaces that occur in text handled here. -/
def pyIsSpace (c : Char) : Bool :=
  c = ' ' ∨ c = '\t' ∨ c = '\n' ∨ c = '\r' ∨ c = '\x0b' ∨ c = '\x0c' ∨
  c = '\u0085' ∨ c = ' ' ∨ c = '　'

/-- Substring test on character lists: some position of `s` starts with `p`
(Python's `p in s`). -/
def listIn (p : List Char) : List Char → Bool
  | [] => p.isPrefixOf []
  | c :: s => p.isPrefixOf (c :: s) || listIn p s

/-- Python's `p in s` on strings. -/
def pyIn (p s : String) : Bool := listIn p.data s.data

/-- Python's `s.endswith(t)`. -/
def pyEndsWith (s t : String) : Bool := t.data.isSuffixOf s.data

/-- Python's `s.strip()` (default whitespace stripping, both ends). -/
def pyStrip (s : String) : String :=
  ⟨((s.data.dropWhile pyIsSpace).reverse.dropWhile pyIsSpace).reverse⟩

/-- Python's `s.rstrip(c)` for a one-character strip set: remove every
trailing copy of `c`. -/
def pyRstrip (s : String) (c : Char) : String :=
  ⟨(s.data.reverse.dropWhile (· = c)).reverse⟩

/-- Python's `s.lower()`, applied character by character (the terms this
program lowercases are ASCII, where `Char.toLower` agrees with Python). -/
def pyLower (s : String) : String := ⟨s.data.map Char.toLower⟩

/-- One pass of Python's `s.replace(p, r)` for a non-empty pattern
`q :: ps`: scan left to right, at each position replace the leftmost match
and continue after it. -/
def replaceAux (q : Char) (ps r : List Char) : List Char → List Char
  | [] => []
  | c :: s =>
    if (q :: ps).isPrefixOf (c :: s) then r ++ replaceAux q ps r (s.drop ps.length)
    else c :: replaceAux q ps r s
termination_by s => s.length
decreasing_by
  all_goals simp only [List.length_drop, List.length_cons]; omega

/-- Python's `s.replace("", r)`: `r` is inserted at every character
boundary, including both ends. -/
def interleave (r : List Char) : List Char → List Char
  | [] => r
  | c :: s => r ++ c :: interleave r s

/-- Python's `s.replace(p, r)` on character lists. -/
def listReplace (s p r : List Char) : List Char :=
  match p with
  | [] => interleave r s
  | q :: ps => replaceAux q ps r s

/-- Python's `s.replace(p, r)` on strings. -/
def pyReplace (s p r : String) : String := ⟨listReplace s.data p.data r.data⟩

/-! ## SHA-256 (`hashlib.sha256`), over byte lists (`Nat`s below 256) -/

/-- Truncation to a 32-bit word. -/
def w32 (n : Nat) : Nat := n % 4294967296

/-- Right rotation of a 32-bit word. -/
def rotr (n k : Nat) : Nat := w32 ((n >>> k) ||| (n <<< (32 - k)))

def shaCh (x y z : Nat) : Nat := (x &&& y) ^^^ ((x ^^^ 4294967295) &&& z)

def shaMaj (x y z : Nat) : Nat := (x &&& y) ^^^ (x &&& z) ^^^ (y &&& z)

def bigSigma0 (x : Nat) : Nat := rotr x 2 ^^^ rotr x 13 ^^^ rotr x 22

def bigSigma1 (x : Nat) : Nat := rotr x 6 ^^^ rotr x 11 ^^^ rotr x 25

def smallSigma0 (x : Nat) : Nat := rotr x 7 ^^^ rotr x 18 ^^^ (x >>> 3)

def smallSigma1 (x : Nat) : Nat := rotr x 17 ^^^ rotr x 19 ^^^ (x >>> 10)

/-- The SHA-256 round constants. -/
def shaK : List Nat :=
  [1116352408, 1899447441, 3049323471, 3921009573, 961987163, 1508970993,
   2453635748, 2870763221, 3624381080, 310598401, 607225278, 1426881987,
   1925078388, 2162078206, 2614888103, 3248222580, 3835390401, 4022224774,
   264347078, 604807628, 770255983, 1249150122, 1555081692, 1996064986,
   2554220882, 2821834349, 2952996808, 3210313671, 3336571891, 3584528711,
   113926993, 338241895, 666307205, 773529912, 1294757372, 1396182291,
   1695183700, 1986661051, 2177026350, 2456956037, 2730485921, 2820302411,
   3259730800, 3345764771, 3516065817, 3600352804, 4094571909, 275423344,
   430227734, 506948616, 659060556, 883997877, 958139571, 1322822218,
   1537002063, 1747873779, 1955562222, 2024104815, 2227730452, 2361852424,
   2428436474, 2756734187, 3204031479, 3329325298]

/-- `len` bytes of `n`, big-endian. -/
def natToBytesBE (len n : Nat) : List Nat :=
  (List.range len).map (fun i => (n >>> (8 * (len - 1 - i))) % 256)

/-- Big-endian bytes to a natural number (`int.from_bytes(_, "big")`). -/
def fromBytesBE (bs : List Nat) : Nat := bs.foldl (fun acc b => acc * 256 + b) 0

/-- Group bytes into big-endian 32-bit words. -/
def bytesToWordsBE : List Nat → List Nat
  | b0 :: b1 :: b2 :: b3 :: rest =>
    ((b0 <<< 24) ||| (b1 <<< 16) ||| (b2 <<< 8) ||| b3) :: bytesToWordsBE rest
  | _ => []

/-- SHA-256 padding: append `0x80`, zero bytes to 56 mod 64, then the
bit length as 8 big-endian bytes. -/
def shaPad (msg : List Nat) : List Nat :=
  let L := msg.length
  let z := (119 - L % 64) % 64
  msg ++ 0x80 :: List.replicate z 0 ++ natToBytesBE 8 (8 * L)

/-- Split a byte list into 64-byte blocks, with a structural fuel bound
(the fuel never runs out: each step removes at least one byte). -/
def chunksAux : Nat → List Nat → List (List Nat)
  | 0, _ => []
  | _ + 1, [] => []
  | fuel + 1, b :: l => (b :: l).take 64 :: chunksAux fuel ((b :: l).drop 64)

/-- Split a byte list into 64-byte blocks. -/
def chunks64 (l : List Nat) : List (List Nat) := chunksAux l.length l

/-- Extend the 16 message words by `k` further schedule words. -/
def schedExtend : Nat → List Nat → List Nat
  | 0, ws => ws
  | k + 1, ws =>
    let n := ws.length
    schedExtend k (ws ++ [w32 (smallSigma1 (ws.getD (n - 2) 0) + ws.getD (n - 7) 0 +
      smallSigma0 (ws.getD (n - 15) 0) + ws.getD (n - 16) 0)])

/-- The SHA-256 working state. -/
structure ShaState where
  a : Nat
  b : Nat
  c : Nat
  d : Nat
  e : Nat
  f : Nat
  g : Nat
  h : Nat
deriving DecidableEq

/-- The SHA-256 initial hash value. -/
def shaH0 : ShaState :=
  ⟨1779033703, 3144134277, 1013904242, 2773480762,
   1359893119, 2600822924, 528734635, 1541459225⟩

/-- One SHA-256 compression round. -/
def shaRound (s : ShaState) (ki wi : Nat) : ShaState :=
  let t1 := w32 (s.h + bigSigma1 s.e + shaCh s.e s.f s.g + ki + wi)
  let t2 := w32 (bigSigma0 s.a + shaMaj s.a s.b s.c)
  ⟨w32 (t1 + t2), s.a, s.b, s.c, w32 (s.d + t1), s.e, s.f, s.g⟩

/-- Compress one 64-byte block into the running hash state. -/
def compressBlock (H : ShaState) (block : List Nat) : ShaState :=
  let ws := schedExtend 48 (bytesToWordsBE block)
  let s := (shaK.zip ws).foldl (fun s kw => shaRound s kw.1 kw.2) H
  ⟨w32 (H.a + s.a), w32 (H.b + s.b), w32 (H.c + s.c), w32 (H.d + s.d),
   w32 (H.e + s.e), w32 (H.f + s.f), w32 (H.g + s.g), w32 (H.h + s.h)⟩

/-- The 32-byte SHA-256 digest of a byte list. -/
def sha256 (msg : List Nat) : List Nat :=
  let fin := (chunks64 (shaPad msg)).foldl compressBlock shaH0
  natToBytesBE 4 fin.a ++ natToBytesBE 4 fin.b ++ natToBytesBE 4 fin.c ++
  natToBytesBE 4 fin.d ++ natToBytesBE 4 fin.e ++ natToBytesBE 4 fin.f ++
  natToBytesBE 4 fin.g ++ natToBytesBE 4 fin.h

/-- UTF-8 encoding of one Unicode scalar value (`str.encode("utf-8")`,
character by character). -/
def utf8Char (c : Char) : List Nat :=
  let n := c.toNat
  if n < 0x80 then [n]
  else if n < 0x800 then [0xC0 ||| (n >>> 6), 0x80 ||| (n &&& 0x3F)]
  else if n < 0x10000 then
    [0xE0 ||| (n >>> 12), 0x80 ||| ((n >>> 6) &&& 0x3F), 0x80 ||| (n &&& 0x3F)]
  else
    [0xF0 ||| (n >>> 18), 0x80 ||| ((n >>> 12) &&& 0x3F),
     0x80 ||| ((n >>> 6) &&& 0x3F), 0x80 ||| (n &&& 0x3F)]

/-- UTF-8 encoding of a string. -/
def utf8Encode (s : String) : List Nat := s.data.foldr (fun c bs => utf8Char c ++ bs) []

/-! ## `tools/build_vocab_master.py` -/

/-- `_pick_index(seed, n)`: the first 4 bytes of the SHA-256 digest of the
UTF-8 encoded seed, as a big-endian integer, reduced modulo `n`. -/
def pick_index (seed : String) (n : Nat) : Nat :=
  fromBytesBE ((sha256 (utf8Encode seed)).take 4) % n

/-- One vocabulary record (the `Row` dataclass). -/
structure Row where
  deck : String
  front : String
  back : String
  japanese : String
  hiragana : String
  english : String
  example_jp : String
  example_hiragana : String
  example_en : String

/-- `make_reading`: replace the term by its reading if the term occurs in
the sentence, else return the empty string. -/
def make_reading (sentence_jp term_jp term_hira : String) : String :=
  if pyIn term_jp sentence_jp then pyReplace sentence_jp term_jp term_hira else ""

/-- The `specials` table of `make_example2`: hand-authored triples for six
exact terms. -/
def specials : List (String × (String × String × String)) :=
  [("結論から言うと", ("結論から言うと、問題ありません。", "けつろんからいうと、もんだいありません。", "Bottom line: no problem.")),
   ("次回までに", ("次回までに、対応します。", "じかいまでに、たいおうします。", "I'll handle it by next time.")),
   ("前倒し", ("前倒しで進めます。", "まえだおしですすめます。", "We'll move it earlier.")),
   ("後ろ倒し", ("後ろ倒しにします。", "うしろだおしにします。", "We'll push it back.")),
   ("予定通り", ("予定通り進めます。", "よていどおりすすめます。", "We'll proceed as planned.")),
   ("いったん", ("いったん、ここで止めます。", "いったん、ここでとめます。", "For now, we'll stop here."))]
/-- A template pair `(tmpl_jp, tmpl_en)`, represented by the literal text
around the single placeholder of each template: Python's `tmpl.format` on
these fixed templates is exactly `prefix ++ argument ++ suffix`. -/
abbrev FrameD : Type := (String × String) × (String × String)

/-- Fill a frame's Japanese template with the term. -/
def fillJp (fr : FrameD) (t : String) : String := fr.1.1 ++ t ++ fr.1.2

/-- Fill a frame's English template with the (possibly stripped) gloss. -/
def fillEn (fr : FrameD) (e : String) : String := fr.2.1 ++ e ++ fr.2.2

/-- The common tail of every frame-driven branch: pick
`frames[_pick_index(seed, len(frames))]`, fill the Japanese template with
the term, derive the reading, fill the English template. -/
def runFrames (frames : List FrameD) (seed t hiraArg e : String) :
    String × String × String :=
  let fr := frames.getD (pick_index seed frames.length) (("", ""), ("", ""))
  (fillJp fr t, make_reading (fillJp fr t) t hiraArg, fillEn fr e)

/-- The selection seed `f"{row.deck}|{jp}|{hira}|{en}"`. -/
def seedOf (row : Row) : String :=
  row.deck ++ "|" ++ row.japanese ++ "|" ++ row.hiragana ++ "|" ++ row.english

/-- The gloss normalization `en.strip().rstrip(".")` shared by several
branches. -/
def enStripped (en : String) : String := pyRstrip (pyStrip en) '.'

/-- The `します` templates of `make_example2` (seed suffix `|v1`). -/
def framesV1 : List FrameD :=
  [(("いま、", "。"), ("", " now.")),
   (("このあと、", "。"), ("", " after this.")),
   (("", "ので、すこしまってください。"), ("", ", so please wait a moment.")),
   (("", "。おわったらおしえます。"), ("", ". I'll let you know when I'm done."))]

/-- The `ください` templates of `make_example2` (seed suffix `|v2`). -/
def framesV2 : List FrameD :=
  [(("すみません、", "。"), ("", ".")),
   (("もういちど", "。"), ("", " again.")),
   (("あとで", "。"), ("", " later."))]

/-- The meeting-idiom templates of `make_example2` (seed suffix `|v3`). -/
def framesV3 : List FrameD :=
  [(("", "、もういちどかくにんします。"), ("", " — I'll double-check.")),
   (("", "、いまのじょうきょうをきょうゆうします。"), ("", " — I'll share the current status.")),
   (("", "、つぎのすてっぷをせつめいします。"), ("", " — I'll explain the next steps."))]

/-- The `です` templates of `make_example2` (seed suffix `|v5`). -/
def framesV5 : List FrameD :=
  [(("きょうは", "。"), ("Today it's ", ".")),
   (("このけんは", "。"), ("For this item, it's ", ".")),
   (("いまは", "。"), ("Right now, it's ", "."))]

/-- The meeting-deck generic templates of `make_example2` (seed suffix
`|m1`). -/
def framesM1 : List FrameD :=
  [(("まず", "をそろえましょう。"), ("Let's align on ", " first.")),
   (("", "をきめてからすすみます。"), ("We'll proceed after deciding ", ".")),
   (("この", "はどうおもいますか。"), ("What do you think about this ", "?")),
   (("", "をみなおして、つぎにすすみます。"), ("We'll revisit ", " and move forward.")),
   (("", "をきょうゆうしてもらえますか。"), ("Could you share the ", "?"))]

/-- The default tech/engineering templates of `make_example2` (seed suffix
`|t1`). -/
def framesT1 : List FrameD :=
  [(("この", "をつかって、けっかをくらべます。"), ("We'll use ", " and compare results.")),
   (("", "をかえて、せいのうをみます。"), ("We'll adjust ", " and check performance.")),
   (("", "をためして、ばらつきをしらべます。"), ("We'll test ", " and look for variability.")),
   (("", "をついかして、せいどをあげます。"), ("We'll add ", " to improve accuracy.")),
   (("", "をへらして、ふかをさげます。"), ("We'll reduce ", " to lower load.")),
   (("", "のせっていをきろくします。"), ("We'll document the ", " settings.")),
   (("", "のちがいをせつめいできますか。"), ("Can you explain ", "?")),
   (("", "をえらぶりゆうをきょうゆうしてください。"), ("Please share why we chose ", ".")),
   (("まず", "をみなおします。"), ("First, we'll revisit ", ".")),
   (("このしすてむで", "をつかいます。"), ("We'll use ", " in this system."))]

/-- The permission-request templates of `make_example3` (seed suffix
`|mperm`). -/
def framesMperm : List FrameD :=
  [(("", "。ごふんだけいいですか。"), ("", ". Do you have five minutes?")),
   (("", "。いまきめきれません。"), ("", ". I can't decide right now.")),
   (("このけん、", "。あとでじかんをください。"), ("", " on this—please give me some time later."))]

/-- The `ください` templates of `make_example3` (seed suffix `|kudasai`). -/
def framesKudasai : List FrameD :=
  [(("", "。よろしくおねがいします。"), ("", ". Thank you.")),
   (("", "。あとででもだいじょうぶです。"), ("", ". Later is fine too.")),
   (("すみません、", "。"), ("", ". Sorry to bother you."))]

/-- The `します` templates of `make_example3` (seed suffix `|suru`). -/
def framesSuru : List FrameD :=
  [(("", "。そのあと、つぎにすすみます。"), ("", ". Then we'll move on.")),
   (("あとで", "。いまはべつのたいおうちゅうです。"), ("", " later. I'm handling something else right now.")),
   (("", "。すこしじかんをください。"), ("", ". Please give me a bit of time.")),
   (("", "。おわったらすぐにおしえます。"), ("", ". I'll let you know once it's done."))]

/-- The `念のため` templates of `make_example3` (seed suffix `|nen`). -/
def framesNen : List FrameD :=
  [(("", "、ろぐをみます。"), ("", ", I'll check the logs.")),
   (("", "、すくりーんしょっとをとります。"), ("", ", I'll take a screenshot.")),
   (("", "、めもをのこします。"), ("", ", I'll leave a note."))]

/-- The meeting-deck templates of `make_example3` (seed suffix `|m`). -/
def framesM : List FrameD :=
  [(("この", "はあとでまとめます。"), ("We'll summarize this ", " later.")),
   (("", "がずれているかもしれません。"), ("", " might be misaligned.")),
   (("", "をかくにんしてから、けつろんをだします。"), ("We'll confirm ", " before we conclude.")),
   (("", "をへんこうするよていはありますか。"), ("Do we plan to change the ", "?"))]

/-- The tech/engineering templates of `make_example3` (seed suffix `|t`). -/
def framesT : List FrameD :=
  [(("", "をぶんせきして、げんいんをさがします。"), ("We'll analyze ", " and look for the root cause.")),
   (("", "をもとに、けっていをします。"), ("We'll make a decision based on ", ".")),
   (("", "をいったんさくじょして、えいきょうをみます。"), ("We'll temporarily remove ", " and see the impact.")),
   (("", "をさいていぎして、けいそくしなおします。"), ("We'll redefine ", " and measure again.")),
   (("", "をさいげんできるように、ろぐをのこします。"), ("We'll keep logs so we can reproduce ", "."))]

/-- The question branch of `make_example2` (seed suffix `|v4`): pick among
the three same-index template pairs, then post-process the Japanese
sentence to end in `か`/`？` and the English sentence to end in `?`. -/
def questionOut (row : Row) : String × String × String :=
  let jp := row.japanese
  let i := pick_index (seedOf row ++ "|v4") 3
  let ex_jp0 := ["このへんこうで" ++ jp, jp ++ "。", "いまのじょうきょうで" ++ jp].getD i ""
  let ex_jp :=
    if !pyEndsWith ex_jp0 "か" && !pyEndsWith ex_jp0 "？" then pyRstrip ex_jp0 '。' ++ "？"
    else ex_jp0
  let e4 := pyRstrip (pyRstrip row.english '?') '.'
  let ex_en0 := ["Is there any impact from this change?", e4 ++ "?", e4 ++ "?"].getD i ""
  let ex_en := if !pyEndsWith ex_en0 "?" then ex_en0 ++ "?" else ex_en0
  (ex_jp, make_reading ex_jp jp row.hiragana, ex_en)

/-- `make_example2(row)`: the secondary synthesized example triple
`(ex_jp, ex_hiragana, ex_en)`.  The question branch keeps its two
same-index template lists inline (its English template 0 has no
placeholder, and both sentences are post-processed). -/
def make_example2 (row : Row) : String × String × String :=
  let jp := row.japanese
  let hira := row.hiragana
  let en := row.english
  match specials.lookup jp with
  | some v => v
  | none =>
  if pyIn "〜" jp then
    if pyIn "よろしいでしょうか" jp then
      ("この内容でよろしいでしょうか。", "このないようでよろしいでしょうか。", "Would this be okay?")
    else if pyIn "という認識です" jp then
      ("この点はそういう認識です。", "このてんはそういうにんしきです。", "That's my understanding.")
    else
      let filled_jp := pyReplace jp "〜" "この点"
      let filled_hira := pyReplace hira "〜" "このてん"
      (filled_jp ++ "。", filled_hira ++ "。", "Example: " ++ en)
  else if pyEndsWith jp "は" && (pyIn "?" en || pyIn "evidence" (pyLower en)) then
    (jp ++ "ありますか。", hira ++ "ありますか。", "Could you share the evidence?")
  else
    let is_meeting := pyEndsWith row.deck "meeting_phrases"
    if pyEndsWith jp "します" then
      runFrames framesV1 (seedOf row ++ "|v1") jp hira (enStripped en)
    else if pyEndsWith jp "ください" then
      runFrames framesV2 (seedOf row ++ "|v2") jp hira (enStripped en)
    else if is_meeting && (jp == "念のため" || jp == "追加で") then
      runFrames framesV3 (seedOf row ++ "|v3") jp hira (enStripped en)
    else if pyEndsWith jp "か" || pyEndsWith (pyStrip en) "?" then
      questionOut row
    else if pyEndsWith jp "です" then
      runFrames framesV5 (seedOf row ++ "|v5") jp hira en
    else if is_meeting then
      runFrames framesM1 (seedOf row ++ "|m1") jp hira en
    else
      runFrames framesT1 (seedOf row ++ "|t1") jp hira en

/-- `make_example3(row)`: the tertiary synthesized example triple. -/
def make_example3 (row : Row) : String × String × String :=
  let jp := row.japanese
  let hira := row.hiragana
  let en := row.english
  let seed := seedOf row ++ "|ex3"
  let is_meeting := pyEndsWith row.deck "meeting_phrases"
  if is_meeting && pyIn "させてください" jp then
    runFrames framesMperm (seed ++ "|mperm") jp hira (enStripped en)
  else if pyEndsWith jp "ください" then
    runFrames framesKudasai (seed ++ "|kudasai") jp hira (enStripped en)
  else if pyEndsWith jp "します" then
    runFrames framesSuru (seed ++ "|suru") jp hira (enStripped en)
  else if is_meeting then
    if jp = "念のため" then
      runFrames framesNen (seed ++ "|nen") jp hira (enStripped en)
    else
      runFrames framesM (seed ++ "|m") jp hira (enStripped en)
  else
    runFrames framesT (seed ++ "|t") jp hira (enStripped en)

/-! ## `tools/llm_expand_examples.py`: the validation predicate -/

/-- The character class of `HIRAGANA_KATAKANA_RE`: hiragana, katakana,
CJK symbols/punctuation, and the listed ASCII and full-width extras. -/
def hiraganaishChar (c : Char) : Bool :=
  (0x3040 ≤ c.toNat && c.toNat ≤ 0x309F) ||
  (0x30A0 ≤ c.toNat && c.toNat ≤ 0x30FF) ||
  (0x3000 ≤ c.toNat && c.toNat ≤ 0x303F) ||
  " 0123456789abcdefghijklmnopqrstuvwxyzABCDEFGHIJKLMNOPQRSTUVWXYZ。、！？ー・「」『』（）()…:;,.!?/".data.contains c

/-- `is_hiraganaish(text)`: the stripped text is non-empty and fully
matches the anchored character-class regex. -/
def is_hiraganaish (text : String) : Bool :=
  let t := pyStrip text
  !t.data.isEmpty && t.data.all hiraganaishChar

/-- `validate_example2(example, japanese=...)`: `none` when the candidate
triple `(jp, hira, en)` passes, else the first error message. -/
def validate_example2 (jp hira en japanese : String) : Option String :=
  if !pyIn japanese jp then some "example.jp does not contain the target term exactly"
  else if !is_hiraganaish hira then
    some "example.hiragana contains non-hiragana/katakana characters (likely kanji)"
  else if 140 < jp.data.length then some "example.jp seems too long"
  else if 200 < en.data.length then some "example.en seems too long"
  else none


/-! ## Basic lemmas about the string primitives -/

theorem listIn_infix_iff (p s : List Char) : listIn p s = true ↔ p <:+: s := by
  induction s with
  | nil => simp [listIn, List.isPrefixOf_iff_prefix]
  | cons c s ih => simp [listIn, List.isPrefixOf_iff_prefix, ih, List.infix_cons_iff]

theorem pyIn_iff (p s : String) : pyIn p s = true ↔ p.data <:+: s.data :=
  listIn_infix_iff p.data s.data

theorem pyEndsWith_iff (s t : String) : pyEndsWith s t = true ↔ t.data <:+ s.data :=
  List.isSuffixOf_iff_suffix

theorem str_ne_of_length {a b : String} (h : a.data.length ≠ b.data.length) : a ≠ b :=
  fun he => h (congrArg (fun s => s.data.length) he)

theorem str_ne_of_count (c : Char) {a b : String} (h : a.data.count c ≠ b.data.count c) :
    a ≠ b :=
  fun he => h (congrArg (fun s => s.data.count c) he)

theorem str_ne_of_last {a b : String} (h : a.data.getLast? ≠ b.data.getLast?) : a ≠ b :=
  fun he => h (congrArg (fun s => s.data.getLast? ) he)

theorem str_ne_of_mem (c : Char) {a b : String} (h1 : c ∉ a.data) (h2 : c ∈ b.data) :
    a ≠ b :=
  fun he => h1 (he ▸ h2)

theorem ne_triple_fst {a1 b1 a2 a3 b2 b3 : String} (h : a1 ≠ b1) :
    (a1, a2, a3) ≠ (b1, b2, b3) :=
  fun he => h (congrArg (fun p => p.1) he)

theorem ne_triple_en {a1 b1 a2 a3 b2 b3 : String} (h : a3 ≠ b3) :
    (a1, a2, a3) ≠ (b1, b2, b3) :=
  fun he => h (congrArg (fun p => p.2.2) he)

/-! ## Separators: decidable sufficient conditions for two template fills
of the same argument to differ -/

/-- A decidable separator for two `(prefix, suffix)` template pairs: the
constant lengths differ, or the prefixes agree and the suffixes differ, or
the multiset of template constants differs in one of the probe characters. -/
def sepPair (p q : String × String) : Bool :=
  (p.1.data.length + p.2.data.length != q.1.data.length + q.2.data.length) ||
  (p.1 == q.1 && p.2 != q.2) ||
  ((p.1.data ++ p.2.data).count 'を' != (q.1.data ++ q.2.data).count 'を') ||
  ((p.1.data ++ p.2.data).count 'の' != (q.1.data ++ q.2.data).count 'の') ||
  ((p.1.data ++ p.2.data).count '。' != (q.1.data ++ q.2.data).count '。')

theorem sepPair_fill_ne (p q : String × String) (t : String) (h : sepPair p q = true) :
    p.1 ++ t ++ p.2 ≠ q.1 ++ t ++ q.2 := by
  intro he
  have hlen := congrArg (fun s => s.data.length) he
  have hwo := congrArg (fun s => s.data.count 'を') he
  have hno := congrArg (fun s => s.data.count 'の') he
  have hma := congrArg (fun s => s.data.count '。') he
  simp only [String.data_append, List.length_append, List.count_append] at hlen hwo hno hma
  simp only [sepPair, Bool.or_eq_true, Bool.and_eq_true, bne_iff_ne, ne_eq, beq_iff_eq] at h
  rcases h with ((((h | ⟨h1, h2⟩) | h) | h) | h)
  · omega
  · apply h2
    rw [h1] at he
    have hd := congrArg String.data he
    simp only [String.data_append, List.append_assoc] at hd
    exact String.ext (List.append_cancel_left (List.append_cancel_left hd))
  · simp only [List.count_append] at h; omega
  · simp only [List.count_append] at h; omega
  · simp only [List.count_append] at h; omega

/-! ## Frame-selection lemmas -/

theorem pick_index_lt (seed : String) (n : Nat) (h : 0 < n) : pick_index seed n < n :=
  Nat.mod_lt _ h

theorem runFrames_mem (frames : List FrameD) (hne : frames ≠ []) (seed t ha e : String) :
    ∃ fr ∈ frames, runFrames frames seed t ha e =
      (fillJp fr t, make_reading (fillJp fr t) t ha, fillEn fr e) := by
  refine ⟨frames.getD (pick_index seed frames.length) (("", ""), ("", "")), ?_, rfl⟩
  have hlen : 0 < frames.length := List.length_pos.2 hne
  rw [List.getD_eq_getElem _ _ (pick_index_lt seed _ hlen)]
  exact List.getElem_mem _

/-- Two frame-driven branch outputs differ whenever every pair of their
frames is separated on the Japanese side. -/
theorem runFrames_ne_jp (f2 f3 : List FrameD) (s2 s3 t h2 h3 e2 e3 : String)
    (hne2 : f2 ≠ []) (hne3 : f3 ≠ [])
    (hsep : ∀ a ∈ f2, ∀ b ∈ f3, sepPair a.1 b.1 = true) :
    runFrames f2 s2 t h2 e2 ≠ runFrames f3 s3 t h3 e3 := by
  obtain ⟨a, ha, hea⟩ := runFrames_mem f2 hne2 s2 t h2 e2
  obtain ⟨b, hb, heb⟩ := runFrames_mem f3 hne3 s3 t h3 e3
  rw [hea, heb]
  exact ne_triple_fst (sepPair_fill_ne a.1 b.1 t (hsep a ha b hb))

/-- Two frame-driven branch outputs on the same English argument differ
whenever every pair of their frames is separated on the Japanese or the
English side. -/
theorem runFrames_ne_jpen (f2 f3 : List FrameD) (s2 s3 t h2 h3 e : String)
    (hne2 : f2 ≠ []) (hne3 : f3 ≠ [])
    (hsep : ∀ a ∈ f2, ∀ b ∈ f3, (sepPair a.1 b.1 || sepPair a.2 b.2) = true) :
    runFrames f2 s2 t h2 e ≠ runFrames f3 s3 t h3 e := by
  obtain ⟨a, ha, hea⟩ := runFrames_mem f2 hne2 s2 t h2 e
  obtain ⟨b, hb, heb⟩ := runFrames_mem f3 hne3 s3 t h3 e
  rw [hea, heb]
  rcases Bool.or_eq_true_iff.1 (hsep a ha b hb) with h | h
  · exact ne_triple_fst (sepPair_fill_ne a.1 b.1 t h)
  · exact ne_triple_en (sepPair_fill_ne a.2 b.2 e h)

/-- A fixed triple differs from a frame-driven output when its Japanese
sentence differs from every possible fill. -/
theorem const_ne_runFrames (v : String × String × String) (f3 : List FrameD)
    (s3 t h3 e3 : String) (hne3 : f3 ≠ [])
    (hsep : ∀ b ∈ f3, ¬ v.1 = fillJp b t) : v ≠ runFrames f3 s3 t h3 e3 := by
  obtain ⟨b, hb, heb⟩ := runFrames_mem f3 hne3 s3 t h3 e3
  rw [heb]
  obtain ⟨v1, v2, v3⟩ := v
  exact ne_triple_fst (hsep b hb)

/-- A triple whose Japanese sentence is of fixed-template shape around the
term differs from a frame-driven output when the fixed template is
separated from every frame. -/
theorem fixedpair_ne_runFrames (p : String × String) (a2 a3 : String) (f3 : List FrameD)
    (s3 t h3 e3 : String) (hne3 : f3 ≠ [])
    (hsep : ∀ b ∈ f3, sepPair p b.1 = true) :
    (p.1 ++ t ++ p.2, a2, a3) ≠ runFrames f3 s3 t h3 e3 := by
  obtain ⟨b, hb, heb⟩ := runFrames_mem f3 hne3 s3 t h3 e3
  rw [heb]
  exact ne_triple_fst (sepPair_fill_ne p b.1 t (hsep b hb))

/-- A triple whose Japanese sentence avoids a character contained in the
term differs from every frame-driven output over that term. -/
theorem notmem_ne_runFrames (c : Char) (v : String × String × String) (f3 : List FrameD)
    (s3 t h3 e3 : String) (hne3 : f3 ≠ [])
    (hc : c ∈ t.data) (hfree : c ∉ v.1.data) : v ≠ runFrames f3 s3 t h3 e3 := by
  obtain ⟨b, hb, heb⟩ := runFrames_mem f3 hne3 s3 t h3 e3
  rw [heb]
  obtain ⟨v1, v2, v3⟩ := v
  apply ne_triple_fst
  apply str_ne_of_mem c hfree
  simp only [fillJp, String.data_append, List.mem_append]
  exact Or.inl (Or.inr hc)

/-- A triple whose Japanese sentence ends in `か` or `？` differs from a
frame-driven output all of whose Japanese suffixes end in `。`. -/
theorem last_ne_runFrames (v : String × String × String) (f3 : List FrameD)
    (s3 t h3 e3 : String) (hne3 : f3 ≠ [])
    (hlast : v.1.data.getLast? = some 'か' ∨ v.1.data.getLast? = some '？')
    (hsuf : ∀ b ∈ f3, b.1.2.data.getLast? = some '。') : v ≠ runFrames f3 s3 t h3 e3 := by
  obtain ⟨b, hb, heb⟩ := runFrames_mem f3 hne3 s3 t h3 e3
  rw [heb]
  obtain ⟨v1, v2, v3⟩ := v
  apply ne_triple_fst
  apply str_ne_of_last
  have : (fillJp b t).data.getLast? = some '。' := by
    simp only [fillJp, String.data_append, List.getLast?_append, hsuf b hb, Option.or_some]
  rw [this]
  rcases hlast with h | h <;> simp_all

/-! ## Branch characterizations of `make_example2` -/

theorem ex2_special (row : Row) (v : String × String × String)
    (h : specials.lookup row.japanese = some v) : make_example2 row = v := by
  simp [make_example2, h]

theorem ex2_ph_yoroshii (row : Row)
    (h0 : specials.lookup row.japanese = none)
    (hph : pyIn "〜" row.japanese = true)
    (hy : pyIn "よろしいでしょうか" row.japanese = true) :
    make_example2 row =
      ("この内容でよろしいでしょうか。", "このないようでよろしいでしょうか。", "Would this be okay?") := by
  simp [make_example2, h0, hph, hy]

theorem ex2_ph_ninshiki (row : Row)
    (h0 : specials.lookup row.japanese = none)
    (hph : pyIn "〜" row.japanese = true)
    (hy : pyIn "よろしいでしょうか" row.japanese = false)
    (hn : pyIn "という認識です" row.japanese = true) :
    make_example2 row =
      ("この点はそういう認識です。", "このてんはそういうにんしきです。", "That's my understanding.") := by
  simp [make_example2, h0, hph, hy, hn]

theorem ex2_ph_generic (row : Row)
    (h0 : specials.lookup row.japanese = none)
    (hph : pyIn "〜" row.japanese = true)
    (hy : pyIn "よろしいでしょうか" row.japanese = false)
    (hn : pyIn "という認識です" row.japanese = false) :
    make_example2 row =
      (pyReplace row.japanese "〜" "この点" ++ "。",
       pyReplace row.hiragana "〜" "このてん" ++ "。",
       "Example: " ++ row.english) := by
  simp [make_example2, h0, hph, hy, hn]

theorem ex2_q1 (row : Row)
    (h0 : specials.lookup row.japanese = none)
    (hph : pyIn "〜" row.japanese = false)
    (hq : (pyEndsWith row.japanese "は" &&
      (pyIn "?" row.english || pyIn "evidence" (pyLower row.english))) = true) :
    make_example2 row =
      (row.japanese ++ "ありますか。", row.hiragana ++ "ありますか。",
       "Could you share the evidence?") := by
  simp [make_example2, h0, hph, hq]

theorem ex2_v1 (row : Row)
    (h0 : specials.lookup row.japanese = none)
    (hph : pyIn "〜" row.japanese = false)
    (hq : (pyEndsWith row.japanese "は" &&
      (pyIn "?" row.english || pyIn "evidence" (pyLower row.english))) = false)
    (hv1 : pyEndsWith row.japanese "します" = true) :
    make_example2 row =
      runFrames framesV1 (seedOf row ++ "|v1") row.japanese row.hiragana
        (enStripped row.english) := by
  simp [make_example2, h0, hph, hq, hv1]

theorem ex2_v2 (row : Row)
    (h0 : specials.lookup row.japanese = none)
    (hph : pyIn "〜" row.japanese = false)
    (hq : (pyEndsWith row.japanese "は" &&
      (pyIn "?" row.english || pyIn "evidence" (pyLower row.english))) = false)
    (hv1 : pyEndsWith row.japanese "します" = false)
    (hv2 : pyEndsWith row.japanese "ください" = true) :
    make_example2 row =
      runFrames framesV2 (seedOf row ++ "|v2") row.japanese row.hiragana
        (enStripped row.english) := by
  simp [make_example2, h0, hph, hq, hv1, hv2]

theorem ex2_v3 (row : Row)
    (h0 : specials.lookup row.japanese = none)
    (hph : pyIn "〜" row.japanese = false)
    (hq : (pyEndsWith row.japanese "は" &&
      (pyIn "?" row.english || pyIn "evidence" (pyLower row.english))) = false)
    (hv1 : pyEndsWith row.japanese "します" = false)
    (hv2 : pyEndsWith row.japanese "ください" = false)
    (hv3 : (pyEndsWith row.deck "meeting_phrases" &&
      (row.japanese == "念のため" || row.japanese == "追加で")) = true) :
    make_example2 row =
      runFrames framesV3 (seedOf row ++ "|v3") row.japanese row.hiragana
        (enStripped row.english) := by
  simp [make_example2, h0, hph, hq, hv1, hv2, hv3]

theorem ex2_v4 (row : Row)
    (h0 : specials.lookup row.japanese = none)
    (hph : pyIn "〜" row.japanese = false)
    (hq : (pyEndsWith row.japanese "は" &&
      (pyIn "?" row.english || pyIn "evidence" (pyLower row.english))) = false)
    (hv1 : pyEndsWith row.japanese "します" = false)
    (hv2 : pyEndsWith row.japanese "ください" = false)
    (hv3 : (pyEndsWith row.deck "meeting_phrases" &&
      (row.japanese == "念のため" || row.japanese == "追加で")) = false)
    (hv4 : (pyEndsWith row.japanese "か" || pyEndsWith (pyStrip row.english) "?") = true) :
    make_example2 row = questionOut row := by
  simp [make_example2, h0, hph, hq, hv1, hv2, hv3, hv4]

theorem ex2_v5 (row : Row)
    (h0 : specials.lookup row.japanese = none)
    (hph : pyIn "〜" row.japanese = false)
    (hq : (pyEndsWith row.japanese "は" &&
      (pyIn "?" row.english || pyIn "evidence" (pyLower row.english))) = false)
    (hv1 : pyEndsWith row.japanese "します" = false)
    (hv2 : pyEndsWith row.japanese "ください" = false)
    (hv3 : (pyEndsWith row.deck "meeting_phrases" &&
      (row.japanese == "念のため" || row.japanese == "追加で")) = false)
    (hv4 : (pyEndsWith row.japanese "か" || pyEndsWith (pyStrip row.english) "?") = false)
    (hv5 : pyEndsWith row.japanese "です" = true) :
    make_example2 row =
      runFrames framesV5 (seedOf row ++ "|v5") row.japanese row.hiragana row.english := by
  simp [make_example2, h0, hph, hq, hv1, hv2, hv3, hv4, hv5]

theorem ex2_m1 (row : Row)
    (h0 : specials.lookup row.japanese = none)
    (hph : pyIn "〜" row.japanese = false)
    (hq : (pyEndsWith row.japanese "は" &&
      (pyIn "?" row.english || pyIn "evidence" (pyLower row.english))) = false)
    (hv1 : pyEndsWith row.japanese "します" = false)
    (hv2 : pyEndsWith row.japanese "ください" = false)
    (hv3 : (pyEndsWith row.deck "meeting_phrases" &&
      (row.japanese == "念のため" || row.japanese == "追加で")) = false)
    (hv4 : (pyEndsWith row.japanese "か" || pyEndsWith (pyStrip row.english) "?") = false)
    (hv5 : pyEndsWith row.japanese "です" = false)
    (hm : pyEndsWith row.deck "meeting_phrases" = true) :
    make_example2 row =
      runFrames framesM1 (seedOf row ++ "|m1") row.japanese row.hiragana row.english := by
  have hv3' : (row.japanese == "念のため" || row.japanese == "追加で") = false := by
    rw [hm] at hv3; simpa using hv3
  simp [make_example2, h0, hph, hq, hv1, hv2, hv3', hv4, hv5, hm]

theorem ex2_t1 (row : Row)
    (h0 : specials.lookup row.japanese = none)
    (hph : pyIn "〜" row.japanese = false)
    (hq : (pyEndsWith row.japanese "は" &&
      (pyIn "?" row.english || pyIn "evidence" (pyLower row.english))) = false)
    (hv1 : pyEndsWith row.japanese "します" = false)
    (hv2 : pyEndsWith row.japanese "ください" = false)
    (hv3 : (pyEndsWith row.deck "meeting_phrases" &&
      (row.japanese == "念のため" || row.japanese == "追加で")) = false)
    (hv4 : (pyEndsWith row.japanese "か" || pyEndsWith (pyStrip row.english) "?") = false)
    (hv5 : pyEndsWith row.japanese "です" = false)
    (hm : pyEndsWith row.deck "meeting_phrases" = false) :
    make_example2 row =
      runFrames framesT1 (seedOf row ++ "|t1") row.japanese row.hiragana row.english := by
  simp [make_example2, h0, hph, hq, hv1, hv2, hv3, hv4, hv5, hm]

/-! ## Branch characterizations of `make_example3` -/

theorem ex3_mperm (row : Row)
    (hp : (pyEndsWith row.deck "meeting_phrases" && pyIn "させてください" row.japanese) = true) :
    make_example3 row =
      runFrames framesMperm (seedOf row ++ "|ex3" ++ "|mperm") row.japanese row.hiragana
        (enStripped row.english) := by
  simp [make_example3, hp]

theorem ex3_kudasai (row : Row)
    (hp : (pyEndsWith row.deck "meeting_phrases" && pyIn "させてください" row.japanese) = false)
    (hk : pyEndsWith row.japanese "ください" = true) :
    make_example3 row =
      runFrames framesKudasai (seedOf row ++ "|ex3" ++ "|kudasai") row.japanese row.hiragana
        (enStripped row.english) := by
  simp [make_example3, hp, hk]

theorem ex3_suru (row : Row)
    (hp : (pyEndsWith row.deck "meeting_phrases" && pyIn "させてください" row.japanese) = false)
    (hk : pyEndsWith row.japanese "ください" = false)
    (hs : pyEndsWith row.japanese "します" = true) :
    make_example3 row =
      runFrames framesSuru (seedOf row ++ "|ex3" ++ "|suru") row.japanese row.hiragana
        (enStripped row.english) := by
  simp [make_example3, hp, hk, hs]

theorem ex3_nen (row : Row)
    (hp : (pyEndsWith row.deck "meeting_phrases" && pyIn "させてください" row.japanese) = false)
    (hk : pyEndsWith row.japanese "ください" = false)
    (hs : pyEndsWith row.japanese "します" = false)
    (hm : pyEndsWith row.deck "meeting_phrases" = true)
    (hn : row.japanese = "念のため") :
    make_example3 row =
      runFrames framesNen (seedOf row ++ "|ex3" ++ "|nen") row.japanese row.hiragana
        (enStripped row.english) := by
  simp +decide [make_example3, hp, hk, hs, hm, hn]

theorem ex3_m (row : Row)
    (hp : (pyEndsWith row.deck "meeting_phrases" && pyIn "させてください" row.japanese) = false)
    (hk : pyEndsWith row.japanese "ください" = false)
    (hs : pyEndsWith row.japanese "します" = false)
    (hm : pyEndsWith row.deck "meeting_phrases" = true)
    (hn : ¬ row.japanese = "念のため") :
    make_example3 row =
      runFrames framesM (seedOf row ++ "|ex3" ++ "|m") row.japanese row.hiragana
        (enStripped row.english) := by
  have hp' : pyIn "させてください" row.japanese = false := by
    rw [hm] at hp; simpa using hp
  simp [make_example3, hp', hk, hs, hm, hn]

theorem ex3_t (row : Row)
    (hp : (pyEndsWith row.deck "meeting_phrases" && pyIn "させてください" row.japanese) = false)
    (hk : pyEndsWith row.japanese "ください" = false)
    (hs : pyEndsWith row.japanese "します" = false)
    (hm : pyEndsWith row.deck "meeting_phrases" = false) :
    make_example3 row =
      runFrames framesT (seedOf row ++ "|ex3" ++ "|t") row.japanese row.hiragana
        (enStripped row.english) := by
  simp [make_example3, hp, hk, hs, hm]

/-! ## Supporting lemmas for the selection primitive -/

theorem natToBytesBE_length (len n : Nat) : (natToBytesBE len n).length = len := by
  simp [natToBytesBE]

theorem sha256_length (msg : List Nat) : (sha256 msg).length = 32 := by
  simp [sha256, natToBytesBE_length]

theorem fromBytesBE_take_four (l : List Nat) (h : 4 ≤ l.length) :
    fromBytesBE (l.take 4) =
      l.getD 0 0 * 16777216 + l.getD 1 0 * 65536 + l.getD 2 0 * 256 + l.getD 3 0 := by
  rcases l with _ | ⟨b0, _ | ⟨b1, _ | ⟨b2, _ | ⟨b3, rest⟩⟩⟩⟩ <;> simp at h ⊢
  simp [fromBytesBE]
  ring

/-- C2: `_pick_index(seed, n)` is the first 4 bytes of the SHA-256 digest
of the UTF-8 encoded seed, read as a big-endian unsigned integer, reduced
modulo `n`; for `n ≥ 1` the result lies in `[0, n)`. -/
theorem pick_index_digest_mod (seed : String) (n : Nat) (hn : 1 ≤ n) :
    pick_index seed n =
      ((sha256 (utf8Encode seed)).getD 0 0 * 16777216 +
       (sha256 (utf8Encode seed)).getD 1 0 * 65536 +
       (sha256 (utf8Encode seed)).getD 2 0 * 256 +
       (sha256 (utf8Encode seed)).getD 3 0) % n ∧
    pick_index seed n < n := by
  constructor
  · rw [pick_index, fromBytesBE_take_four _ (by rw [sha256_length]; omega)]
  · exact Nat.mod_lt _ hn

theorem pick_index_digest_mod_witness :
    pick_index "abc" 7 =
      ((sha256 (utf8Encode "abc")).getD 0 0 * 16777216 +
       (sha256 (utf8Encode "abc")).getD 1 0 * 65536 +
       (sha256 (utf8Encode "abc")).getD 2 0 * 256 +
       (sha256 (utf8Encode "abc")).getD 3 0) % 7 ∧
    pick_index "abc" 7 < 7 :=
  pick_index_digest_mod "abc" 7 (by decide)

/-! ## C1: synthesis depends only on deck, term, reading and gloss -/

/-- C1: both synthesis functions are deterministic functions of the
quadruple `(deck, japanese, hiragana, english)` alone: two records that
agree on those four fields produce identical triples. -/
theorem synthesis_deterministic (r1 r2 : Row)
    (hd : r1.deck = r2.deck) (hj : r1.japanese = r2.japanese)
    (hh : r1.hiragana = r2.hiragana) (he : r1.english = r2.english) :
    make_example2 r1 = make_example2 r2 ∧ make_example3 r1 = make_example3 r2 := by
  obtain ⟨d1, f1, b1, j1, hi1, e1, x1, y1, z1⟩ := r1
  obtain ⟨d2, f2, b2, j2, hi2, e2, x2, y2, z2⟩ := r2
  dsimp only at hd hj hh he
  subst hd hj hh he
  exact ⟨rfl, rfl⟩

theorem synthesis_deterministic_witness :
    make_example2 ⟨"03_tech_verbs", "f1", "b1", "確認します", "かくにんします", "to confirm", "a", "b", "c"⟩ =
      make_example2 ⟨"03_tech_verbs", "f2", "b2", "確認します", "かくにんします", "to confirm", "d", "e", "f"⟩ ∧
    make_example3 ⟨"03_tech_verbs", "f1", "b1", "確認します", "かくにんします", "to confirm", "a", "b", "c"⟩ =
      make_example3 ⟨"03_tech_verbs", "f2", "b2", "確認します", "かくにんします", "to confirm", "d", "e", "f"⟩ :=
  synthesis_deterministic _ _ rfl rfl rfl rfl

/-! ## C3: the reading aligner's two outcomes -/

/-- C3: if the term occurs as a substring of the sentence, `make_reading`
returns the sentence with the occurrences of the term replaced by the
reading (Python's `str.replace` semantics); otherwise it returns the empty
string. No other outputs are possible. -/
theorem make_reading_split (s t r : String) :
    (t.data <:+: s.data → make_reading s t r = pyReplace s t r) ∧
    (¬ t.data <:+: s.data → make_reading s t r = "") := by
  constructor <;> intro h
  · rw [make_reading, if_pos ((pyIn_iff t s).2 h)]
  · rw [make_reading, if_neg]
    intro hc
    exact h ((pyIn_iff t s).1 hc)

theorem make_reading_split_witness :
    make_reading "xあyあ" "あ" "か" = pyReplace "xあyあ" "あ" "か" ∧
    make_reading "xy" "あ" "か" = "" :=
  ⟨(make_reading_split "xあyあ" "あ" "か").1 ((listIn_infix_iff _ _).1 (by decide)),
   (make_reading_split "xy" "あ" "か").2
     (fun hinf => (by decide : ¬ listIn "あ".data "xy".data = true)
       ((listIn_infix_iff _ _).2 hinf))⟩

/-! ## C10: the aligner on an empty term -/

theorem listIn_nil (s : List Char) : listIn [] s = true := by
  cases s <;> simp [listIn, List.isPrefixOf]

theorem interleave_eq (r l : List Char) :
    interleave r l = r ++ l.flatMap (fun c => c :: r) := by
  induction l with
  | nil => simp [interleave]
  | cons c s ih => simp [interleave, ih]

/-- C10: on an empty term, `make_reading` never signals term absence:
it returns the sentence with the reading inserted at every character
boundary; for an empty sentence it returns the reading itself, and for a
non-empty reading the result is non-empty, so the "empty result means
term absent" reading of the contract needs a non-empty term. -/
theorem make_reading_empty_term (s r : String) :
    (make_reading s "" r).data = r.data ++ s.data.flatMap (fun c => c :: r.data) ∧
    (s = "" → make_reading s "" r = r) ∧
    (r ≠ "" → make_reading s "" r ≠ "") := by
  have hin : pyIn "" s = true := listIn_nil s.data
  have hbase : make_reading s "" r = pyReplace s "" r := by
    rw [make_reading, if_pos hin]
  have hdata : (make_reading s "" r).data = r.data ++ s.data.flatMap (fun c => c :: r.data) := by
    rw [hbase]
    show interleave r.data s.data = _
    exact interleave_eq r.data s.data
  refine ⟨hdata, ?_, ?_⟩
  · rintro rfl
    apply String.ext
    rw [hdata]
    simp
  · intro hr hcon
    have h0 := congrArg String.data hcon
    rw [hdata] at h0
    exact hr (String.ext ((List.append_eq_nil.1 h0).1))

theorem make_reading_empty_term_witness :
    make_reading "" "" "x" = "x" ∧ make_reading "あい" "" "x" ≠ "" :=
  ⟨(make_reading_empty_term "" "x").2.1 rfl,
   (make_reading_empty_term "あい" "x").2.2 (by decide)⟩

/-! ## C7: question-branch postcondition -/

theorem pyEndsWith_append (s t : String) : pyEndsWith (s ++ t) t = true :=
  (pyEndsWith_iff _ _).2 ⟨s.data, (String.data_append s t).symm⟩

theorem question_post_jp (x : String) :
    (pyEndsWith (if !pyEndsWith x "か" && !pyEndsWith x "？" then pyRstrip x '。' ++ "？" else x) "か" ||
     pyEndsWith (if !pyEndsWith x "か" && !pyEndsWith x "？" then pyRstrip x '。' ++ "？" else x) "？") = true := by
  cases h1 : pyEndsWith x "か" <;> cases h2 : pyEndsWith x "？" <;>
    simp [h1, h2, pyEndsWith_append]

theorem question_post_en (x : String) :
    pyEndsWith (if !pyEndsWith x "?" then x ++ "?" else x) "?" = true := by
  cases h1 : pyEndsWith x "?" <;> simp [h1, pyEndsWith_append]

theorem questionOut_post (row : Row) :
    (pyEndsWith (questionOut row).1 "か" || pyEndsWith (questionOut row).1 "？") = true ∧
    pyEndsWith (questionOut row).2.2 "?" = true := by
  unfold questionOut
  dsimp only
  exact ⟨question_post_jp _, question_post_en _⟩

/-- C7: a record that reaches the question branch of `make_example2`
yields a Japanese sentence ending in `か` or `？` and an English sentence
ending in `?`. -/
theorem question_branch_post (row : Row)
    (h0 : specials.lookup row.japanese = none)
    (hph : pyIn "〜" row.japanese = false)
    (hq : (pyEndsWith row.japanese "は" &&
      (pyIn "?" row.english || pyIn "evidence" (pyLower row.english))) = false)
    (hv1 : pyEndsWith row.japanese "します" = false)
    (hv2 : pyEndsWith row.japanese "ください" = false)
    (hv3 : (pyEndsWith row.deck "meeting_phrases" &&
      (row.japanese == "念のため" || row.japanese == "追加で")) = false)
    (hv4 : (pyEndsWith row.japanese "か" || pyEndsWith (pyStrip row.english) "?") = true) :
    (pyEndsWith (make_example2 row).1 "か" || pyEndsWith (make_example2 row).1 "？") = true ∧
    pyEndsWith (make_example2 row).2.2 "?" = true := by
  rw [ex2_v4 row h0 hph hq hv1 hv2 hv3 hv4]
  exact questionOut_post row

theorem question_branch_post_witness :
    (pyEndsWith (make_example2 ⟨"d", "f", "b", "大丈夫", "だいじょうぶ", "Is it ok?", "", "", ""⟩).1 "か" ||
     pyEndsWith (make_example2 ⟨"d", "f", "b", "大丈夫", "だいじょうぶ", "Is it ok?", "", "", ""⟩).1 "？") = true ∧
    pyEndsWith (make_example2 ⟨"d", "f", "b", "大丈夫", "だいじょうぶ", "Is it ok?", "", "", ""⟩).2.2 "?" = true :=
  question_branch_post ⟨"d", "f", "b", "大丈夫", "だいじょうぶ", "Is it ok?", "", "", ""⟩
    (by decide) (by decide) (by decide) (by decide) (by decide) (by decide) (by decide)

/-! ## C8: the verb-suffix scenario -/

theorem str_empty_append (s : String) : "" ++ s = s :=
  String.ext (by simp [String.data_append])

theorem pyIn_fillJp (fr : FrameD) (t : String) : pyIn t (fillJp fr t) = true :=
  (pyIn_iff t _).2 (by
    simp only [fillJp, String.data_append]
    exact List.infix_append _ _ _)

/-- C8: for a record with term `確認します` and deck `03_tech_verbs`, the
secondary example is selected among exactly the 4 `します` templates by
`_pick_index` on the seed `03_tech_verbs|確認します|<reading>|<gloss>|v1`,
the Japanese sentence contains the term verbatim, and the English sentence
is one of the 4 template fillings with the stripped gloss substituted. -/
theorem verb_suffix_scenario (hira en : String) :
    pick_index ("03_tech_verbs|確認します|" ++ hira ++ "|" ++ en ++ "|v1") 4 < 4 ∧
    make_example2 ⟨"03_tech_verbs", "", "", "確認します", hira, en, "", "", ""⟩ =
      runFrames framesV1 ("03_tech_verbs|確認します|" ++ hira ++ "|" ++ en ++ "|v1")
        "確認します" hira (enStripped en) ∧
    pyIn "確認します"
      (make_example2 ⟨"03_tech_verbs", "", "", "確認します", hira, en, "", "", ""⟩).1 = true ∧
    (make_example2 ⟨"03_tech_verbs", "", "", "確認します", hira, en, "", "", ""⟩).2.2 ∈
      [enStripped en ++ " now.", enStripped en ++ " after this.",
       enStripped en ++ ", so please wait a moment.",
       enStripped en ++ ". I'll let you know when I'm done."] := by
  have h2 : make_example2 ⟨"03_tech_verbs", "", "", "確認します", hira, en, "", "", ""⟩ =
      runFrames framesV1 ("03_tech_verbs|確認します|" ++ hira ++ "|" ++ en ++ "|v1")
        "確認します" hira (enStripped en) :=
    ex2_v1 _ (show specials.lookup "確認します" = none by decide)
      (show pyIn "〜" "確認します" = false by decide)
      (show (pyEndsWith "確認します" "は" && (pyIn "?" en || pyIn "evidence" (pyLower en))) = false by
        simp [show pyEndsWith "確認します" "は" = false from by decide])
      (show pyEndsWith "確認します" "します" = true by decide)
  refine ⟨pick_index_lt _ 4 (by decide), h2, ?_, ?_⟩
  · obtain ⟨fr, hmem, heq⟩ :=
      runFrames_mem framesV1 (by decide)
        ("03_tech_verbs|確認します|" ++ hira ++ "|" ++ en ++ "|v1") "確認します" hira
        (enStripped en)
    rw [h2, heq]
    exact pyIn_fillJp fr _
  · obtain ⟨fr, hmem, heq⟩ :=
      runFrames_mem framesV1 (by decide)
        ("03_tech_verbs|確認します|" ++ hira ++ "|" ++ en ++ "|v1") "確認します" hira
        (enStripped en)
    rw [h2, heq]
    fin_cases hmem <;> simp [fillEn, str_empty_append]

/-! ## Containment lemmas -/

theorem pyIn_right (t s : String) : pyIn t (t ++ s) = true :=
  (pyIn_iff t _).2 (by
    simp only [String.data_append]
    exact ⟨[], s.data, by simp⟩)

theorem pyIn_left (p t : String) : pyIn t (p ++ t) = true :=
  (pyIn_iff t _).2 (by
    simp only [String.data_append]
    exact ⟨p.data, [], by simp⟩)

theorem pyIn_mid (p s t : String) : pyIn t (p ++ t ++ s) = true :=
  (pyIn_iff t _).2 (by
    simp only [String.data_append]
    exact List.infix_append _ _ _)

theorem runFrames_contains (f : List FrameD) (hne : f ≠ []) (seed t ha e : String) :
    pyIn t (runFrames f seed t ha e).1 = true := by
  obtain ⟨fr, _, heq⟩ := runFrames_mem f hne seed t ha e
  rw [heq]
  exact pyIn_fillJp fr t

theorem lookup_mem {α β : Type} [BEq α] [LawfulBEq α] (l : List (α × β)) (k : α) (v : β)
    (h : l.lookup k = some v) : (k, v) ∈ l := by
  induction l with
  | nil => simp [List.lookup] at h
  | cons kv rest ih =>
    obtain ⟨a, b⟩ := kv
    rw [List.lookup] at h
    by_cases hk : k == a
    · rw [hk] at h
      simp only [Option.some.injEq] at h
      simp [List.mem_cons, eq_of_beq hk, h]
    · rw [Bool.not_eq_true] at hk
      rw [hk] at h
      exact List.mem_cons_of_mem _ (ih h)

/-! ## Trailing-character lemmas -/

theorem suffix_singleton_iff (c : Char) (l : List Char) : [c] <:+ l ↔ l.getLast? = some c := by
  constructor
  · rintro ⟨w, rfl⟩
    simp [List.getLast?_append]
  · intro h
    rcases l.eq_nil_or_concat with rfl | ⟨l', a, rfl⟩
    · simp at h
    · rw [List.concat_eq_append] at h ⊢
      rw [List.getLast?_concat] at h
      obtain rfl : a = c := by injection h
      exact ⟨l', rfl⟩

theorem pyEndsWith_single {t : String} {c : Char} (ht : t.data = [c]) (s : String) :
    pyEndsWith s t = true ↔ s.data.getLast? = some c := by
  rw [pyEndsWith_iff, ht]
  exact suffix_singleton_iff c s.data

theorem getLast?_str_append (a b : String) :
    (a ++ b).data.getLast? = b.data.getLast?.or a.data.getLast? := by
  simp [String.data_append, List.getLast?_append]

theorem dropWhile_head_false {p : Char → Bool} :
    ∀ {l : List Char}, (∀ a, l.head? = some a → p a = false) → l.dropWhile p = l
  | [], _ => rfl
  | a :: l, h => by
    rw [List.dropWhile_cons, if_neg]
    simp [h a rfl]

theorem pyRstrip_id (s : String) (c : Char) (h : s.data.getLast? ≠ some c) :
    pyRstrip s c = s := by
  apply String.ext
  show (s.data.reverse.dropWhile (· = c)).reverse = s.data
  rw [dropWhile_head_false, List.reverse_reverse]
  intro a ha
  rw [List.head?_reverse] at ha
  have : a ≠ c := fun hac => h (hac ▸ ha)
  simp [this]

theorem pyRstrip_append_dot (t : String) (h : t.data.getLast? ≠ some '。') :
    pyRstrip (t ++ "。") '。' = t := by
  apply String.ext
  show ((t ++ "。").data.reverse.dropWhile (· = '。')).reverse = t.data
  rw [String.data_append]
  have : (t.data ++ "。".data).reverse = '。' :: t.data.reverse := by simp
  rw [this, List.dropWhile_cons, if_pos (by simp), dropWhile_head_false, List.reverse_reverse]
  intro a ha
  rw [List.head?_reverse] at ha
  have : a ≠ '。' := fun hac => h (hac ▸ ha)
  simp [this]

/-! ## The question branch contains the term when it does not end in `。` -/

theorem question_case_pre (pre t : String) (hlast : t.data.getLast? ≠ some '。')
    (hpre : pre.data.getLast? ≠ some '。') :
    pyIn t (if !pyEndsWith (pre ++ t) "か" && !pyEndsWith (pre ++ t) "？" then
        pyRstrip (pre ++ t) '。' ++ "？"
      else pre ++ t) = true := by
  have hl : (pre ++ t).data.getLast? ≠ some '。' := by
    rw [getLast?_str_append]
    cases ht : t.data.getLast? with
    | none => simpa using hpre
    | some a =>
      rw [ht] at hlast
      simpa using hlast
  split
  · rw [pyRstrip_id _ _ hl]
    exact pyIn_mid pre "？" t
  · exact pyIn_left pre t

theorem question_case_dot (t : String) (hlast : t.data.getLast? ≠ some '。') :
    pyIn t (if !pyEndsWith (t ++ "。") "か" && !pyEndsWith (t ++ "。") "？" then
        pyRstrip (t ++ "。") '。' ++ "？"
      else t ++ "。") = true := by
  have hl : (t ++ "。").data.getLast? = some '。' := by
    rw [getLast?_str_append]; rfl
  have h1 : pyEndsWith (t ++ "。") "か" = false := by
    cases hc : pyEndsWith (t ++ "。") "か" with
    | false => rfl
    | true =>
      have := (pyEndsWith_single rfl (t ++ "。")).1 hc
      rw [hl] at this
      exact absurd this (by decide)
  have h2 : pyEndsWith (t ++ "。") "？" = false := by
    cases hc : pyEndsWith (t ++ "。") "？" with
    | false => rfl
    | true =>
      have := (pyEndsWith_single rfl (t ++ "。")).1 hc
      rw [hl] at this
      exact absurd this (by decide)
  rw [if_pos (by simp [h1, h2])]
  rw [pyRstrip_append_dot t hlast]
  exact pyIn_right t "？"

theorem questionOut_contains (row : Row)
    (hlast : row.japanese.data.getLast? ≠ some '。') :
    pyIn row.japanese (questionOut row).1 = true := by
  unfold questionOut
  dsimp only
  have hi : pick_index (seedOf row ++ "|v4") 3 < 3 := pick_index_lt _ _ (by omega)
  revert hi
  generalize pick_index (seedOf row ++ "|v4") 3 = i
  intro hi
  interval_cases i
  · simpa using question_case_pre "このへんこうで" row.japanese hlast (by decide)
  · simpa using question_case_dot row.japanese hlast
  · simpa using question_case_pre "いまのじょうきょうで" row.japanese hlast (by decide)

/-! ## A uniform view of `make_example3`: always a frame fill whose
template suffix ends in `。` -/

theorem ex3_run (row : Row) :
    ∃ (f : List FrameD) (seed : String), f ≠ [] ∧
      (∀ b ∈ f, b.1.2.data.getLast? = some '。') ∧
      (∀ b ∈ f, b.1.1.data ≠ [] ∨ b.1.2.data ≠ []) ∧
      (∀ b ∈ f, b.2.1.data ≠ [] ∨ b.2.2.data ≠ []) ∧
      make_example3 row =
        runFrames f seed row.japanese row.hiragana (enStripped row.english) := by
  cases hp : (pyEndsWith row.deck "meeting_phrases" && pyIn "させてください" row.japanese) with
  | true => exact ⟨framesMperm, _, by decide, by decide, by decide, by decide, ex3_mperm row hp⟩
  | false =>
  cases hk : pyEndsWith row.japanese "ください" with
  | true => exact ⟨framesKudasai, _, by decide, by decide, by decide, by decide, ex3_kudasai row hp hk⟩
  | false =>
  cases hs : pyEndsWith row.japanese "します" with
  | true => exact ⟨framesSuru, _, by decide, by decide, by decide, by decide, ex3_suru row hp hk hs⟩
  | false =>
  cases hm : pyEndsWith row.deck "meeting_phrases" with
  | true =>
    by_cases hn : row.japanese = "念のため"
    · exact ⟨framesNen, _, by decide, by decide, by decide, by decide, ex3_nen row hp hk hs hm hn⟩
    · exact ⟨framesM, _, by decide, by decide, by decide, by decide, ex3_m row hp hk hs hm hn⟩
  | false => exact ⟨framesT, _, by decide, by decide, by decide, by decide, ex3_t row hp hk hs hm⟩

theorem ex3_contains (row : Row) :
    pyIn row.japanese (make_example3 row).1 = true := by
  obtain ⟨f, seed, hne, _, _, _, heq⟩ := ex3_run row
  rw [heq]
  exact runFrames_contains f hne seed _ _ _

theorem ex3_jp_last (row : Row) :
    (make_example3 row).1.data.getLast? = some '。' := by
  obtain ⟨f, seed, hne, hsuf, _, _, heq⟩ := ex3_run row
  rw [heq]
  obtain ⟨fr, hmem, heq2⟩ := runFrames_mem f hne seed _ _ _
  rw [heq2]
  show (fillJp fr row.japanese).data.getLast? = some '。'
  simp only [fillJp, String.data_append, List.getLast?_append, hsuf fr hmem, Option.or_some]

/-! ## C4 (amended): term containment -/

/-- C4 (amended): for every record whose term contains no placeholder
marker `〜` and does not end in `。`, the Japanese sentences synthesized by
`make_example2` and `make_example3` both contain the term as an exact
substring.  (The original unconditional claim fails for terms ending in
`。`, which the question branch's trailing-`。` strip can mutilate.) -/
theorem term_containment (row : Row)
    (hph : pyIn "〜" row.japanese = false)
    (hdot : pyEndsWith row.japanese "。" = false) :
    pyIn row.japanese (make_example2 row).1 = true ∧
    pyIn row.japanese (make_example3 row).1 = true := by
  have hlast : row.japanese.data.getLast? ≠ some '。' := fun hc => by
    rw [(pyEndsWith_single rfl row.japanese).2 hc] at hdot
    simp at hdot
  refine ⟨?_, ex3_contains row⟩
  cases hsp : specials.lookup row.japanese with
  | some v =>
    rw [ex2_special row v hsp]
    have hmem := lookup_mem specials row.japanese v hsp
    simp only [specials, List.mem_cons, List.not_mem_nil, or_false, Prod.mk.injEq] at hmem
    rcases hmem with ⟨h1, h2⟩ | ⟨h1, h2⟩ | ⟨h1, h2⟩ | ⟨h1, h2⟩ | ⟨h1, h2⟩ | ⟨h1, h2⟩ <;>
      rw [h1, h2] <;> decide
  | none =>
  cases hq : (pyEndsWith row.japanese "は" &&
      (pyIn "?" row.english || pyIn "evidence" (pyLower row.english))) with
  | true =>
    rw [ex2_q1 row hsp hph hq]
    exact pyIn_right _ _
  | false =>
  cases hv1 : pyEndsWith row.japanese "します" with
  | true =>
    rw [ex2_v1 row hsp hph hq hv1]
    exact runFrames_contains _ (by decide) _ _ _ _
  | false =>
  cases hv2 : pyEndsWith row.japanese "ください" with
  | true =>
    rw [ex2_v2 row hsp hph hq hv1 hv2]
    exact runFrames_contains _ (by decide) _ _ _ _
  | false =>
  cases hv3 : (pyEndsWith row.deck "meeting_phrases" &&
      (row.japanese == "念のため" || row.japanese == "追加で")) with
  | true =>
    rw [ex2_v3 row hsp hph hq hv1 hv2 hv3]
    exact runFrames_contains _ (by decide) _ _ _ _
  | false =>
  cases hv4 : (pyEndsWith row.japanese "か" || pyEndsWith (pyStrip row.english) "?") with
  | true =>
    rw [ex2_v4 row hsp hph hq hv1 hv2 hv3 hv4]
    exact questionOut_contains row hlast
  | false =>
  cases hv5 : pyEndsWith row.japanese "です" with
  | true =>
    rw [ex2_v5 row hsp hph hq hv1 hv2 hv3 hv4 hv5]
    exact runFrames_contains _ (by decide) _ _ _ _
  | false =>
  cases hm : pyEndsWith row.deck "meeting_phrases" with
  | true =>
    rw [ex2_m1 row hsp hph hq hv1 hv2 hv3 hv4 hv5 hm]
    exact runFrames_contains _ (by decide) _ _ _ _
  | false =>
    rw [ex2_t1 row hsp hph hq hv1 hv2 hv3 hv4 hv5 hm]
    exact runFrames_contains _ (by decide) _ _ _ _

theorem term_containment_witness :
    pyIn "〜" "議題" = false ∧ pyEndsWith "議題" "。" = false ∧
    pyIn "議題"
      (make_example2 ⟨"01_meeting_phrases", "f", "b", "議題", "ぎだい", "agenda", "", "", ""⟩).1 = true ∧
    pyIn "議題"
      (make_example3 ⟨"01_meeting_phrases", "f", "b", "議題", "ぎだい", "agenda", "", "", ""⟩).1 = true :=
  ⟨by decide, by decide,
   (term_containment ⟨"01_meeting_phrases", "f", "b", "議題", "ぎだい", "agenda", "", "", ""⟩
     (by decide) (by decide)).1,
   (term_containment ⟨"01_meeting_phrases", "f", "b", "議題", "ぎだい", "agenda", "", "", ""⟩
     (by decide) (by decide)).2⟩

/-- C4, counterexample to the original claim: the term `大丈夫。` contains
no placeholder marker, yet the question branch strips its trailing `。`,
so the synthesized Example-2 Japanese sentence does not contain it. -/
theorem term_containment_cex :
    pyIn "〜" "大丈夫。" = false ∧
    pyIn "大丈夫。"
      (make_example2 ⟨"d", "f", "b", "大丈夫。", "だいじょうぶ。", "Is it ok?", "", "", ""⟩).1 = false :=
  ⟨by decide, by decide⟩

/-! ## C6 (amended): totality of the Japanese and English fields -/

theorem str_nonempty (s : String) (h : s.data ≠ []) : s ≠ "" :=
  fun he => h (by rw [he])

theorem str_append3_ne (p t s : String) (h : p.data ≠ [] ∨ s.data ≠ []) :
    p ++ t ++ s ≠ "" := by
  apply str_nonempty
  simp only [String.data_append, ne_eq, List.append_eq_nil]
  rintro ⟨⟨hp, _⟩, hs⟩
  rcases h with h | h
  · exact h hp
  · exact h hs

theorem str_endswith_ne (s t : String) (h : pyEndsWith s t = true) (ht : t.data ≠ []) :
    s ≠ "" := by
  obtain ⟨w, hw⟩ := (pyEndsWith_iff s t).1 h
  apply str_nonempty
  rw [← hw]
  simp [ht]

theorem runFrames_nonempty (f : List FrameD) (hne : f ≠ [])
    (hjp : ∀ b ∈ f, b.1.1.data ≠ [] ∨ b.1.2.data ≠ [])
    (hen : ∀ b ∈ f, b.2.1.data ≠ [] ∨ b.2.2.data ≠ [])
    (seed t ha e : String) :
    (runFrames f seed t ha e).1 ≠ "" ∧ (runFrames f seed t ha e).2.2 ≠ "" := by
  obtain ⟨fr, hmem, heq⟩ := runFrames_mem f hne seed t ha e
  rw [heq]
  exact ⟨str_append3_ne _ _ _ (hjp fr hmem), str_append3_ne _ _ _ (hen fr hmem)⟩

theorem questionOut_nonempty (row : Row) :
    (questionOut row).1 ≠ "" ∧ (questionOut row).2.2 ≠ "" := by
  obtain ⟨hjp, hen⟩ := questionOut_post row
  refine ⟨?_, str_endswith_ne _ _ hen (by decide)⟩
  rcases Bool.or_eq_true_iff.1 hjp with h | h
  · exact str_endswith_ne _ _ h (by decide)
  · exact str_endswith_ne _ _ h (by decide)

theorem ex2_nonempty (row : Row) :
    (make_example2 row).1 ≠ "" ∧ (make_example2 row).2.2 ≠ "" := by
  cases hsp : specials.lookup row.japanese with
  | some v =>
    rw [ex2_special row v hsp]
    have hmem := lookup_mem specials row.japanese v hsp
    simp only [specials, List.mem_cons, List.not_mem_nil, or_false, Prod.mk.injEq] at hmem
    rcases hmem with ⟨h1, h2⟩ | ⟨h1, h2⟩ | ⟨h1, h2⟩ | ⟨h1, h2⟩ | ⟨h1, h2⟩ | ⟨h1, h2⟩ <;>
      rw [h2] <;> exact ⟨by decide, by decide⟩
  | none =>
  cases hph : pyIn "〜" row.japanese with
  | true =>
    cases hy : pyIn "よろしいでしょうか" row.japanese with
    | true => rw [ex2_ph_yoroshii row hsp hph hy]; exact ⟨by decide, by decide⟩
    | false =>
    cases hnn : pyIn "という認識です" row.japanese with
    | true => rw [ex2_ph_ninshiki row hsp hph hy hnn]; exact ⟨by decide, by decide⟩
    | false =>
      rw [ex2_ph_generic row hsp hph hy hnn]
      constructor
      · exact str_endswith_ne _ "。" (pyEndsWith_append _ _) (by decide)
      · show "Example: " ++ row.english ≠ ""
        apply str_nonempty
        simp [String.data_append]
  | false =>
  cases hq : (pyEndsWith row.japanese "は" &&
      (pyIn "?" row.english || pyIn "evidence" (pyLower row.english))) with
  | true =>
    rw [ex2_q1 row hsp hph hq]
    exact ⟨str_endswith_ne _ "ありますか。" (pyEndsWith_append _ _) (by decide),
      show ("Could you share the evidence?" : String) ≠ "" by decide⟩
  | false =>
  cases hv1 : pyEndsWith row.japanese "します" with
  | true =>
    rw [ex2_v1 row hsp hph hq hv1]
    exact runFrames_nonempty framesV1 (by decide) (by decide) (by decide) _ _ _ _
  | false =>
  cases hv2 : pyEndsWith row.japanese "ください" with
  | true =>
    rw [ex2_v2 row hsp hph hq hv1 hv2]
    exact runFrames_nonempty framesV2 (by decide) (by decide) (by decide) _ _ _ _
  | false =>
  cases hv3 : (pyEndsWith row.deck "meeting_phrases" &&
      (row.japanese == "念のため" || row.japanese == "追加で")) with
  | true =>
    rw [ex2_v3 row hsp hph hq hv1 hv2 hv3]
    exact runFrames_nonempty framesV3 (by decide) (by decide) (by decide) _ _ _ _
  | false =>
  cases hv4 : (pyEndsWith row.japanese "か" || pyEndsWith (pyStrip row.english) "?") with
  | true =>
    rw [ex2_v4 row hsp hph hq hv1 hv2 hv3 hv4]
    exact questionOut_nonempty row
  | false =>
  cases hv5 : pyEndsWith row.japanese "です" with
  | true =>
    rw [ex2_v5 row hsp hph hq hv1 hv2 hv3 hv4 hv5]
    exact runFrames_nonempty framesV5 (by decide) (by decide) (by decide) _ _ _ _
  | false =>
  cases hm : pyEndsWith row.deck "meeting_phrases" with
  | true =>
    rw [ex2_m1 row hsp hph hq hv1 hv2 hv3 hv4 hv5 hm]
    exact runFrames_nonempty framesM1 (by decide) (by decide) (by decide) _ _ _ _
  | false =>
    rw [ex2_t1 row hsp hph hq hv1 hv2 hv3 hv4 hv5 hm]
    exact runFrames_nonempty framesT1 (by decide) (by decide) (by decide) _ _ _ _

/-- C6 (amended): for every record with non-empty term and gloss, both
synthesis functions return non-empty Japanese and English sentences.  (The
original claim also required a non-empty reading, which fails: the aligner
can return the empty string, e.g. when the question branch strips a term
ending in `。`.) -/
theorem totality_jp_en (row : Row)
    (hjp : row.japanese ≠ "") (hen : row.english ≠ "") :
    (make_example2 row).1 ≠ "" ∧ (make_example2 row).2.2 ≠ "" ∧
    (make_example3 row).1 ≠ "" ∧ (make_example3 row).2.2 ≠ "" := by
  have hex3 : (make_example3 row).1 ≠ "" ∧ (make_example3 row).2.2 ≠ "" := by
    obtain ⟨f, seed, hne, _, hj, he, heq⟩ := ex3_run row
    rw [heq]
    exact runFrames_nonempty f hne hj he seed _ _ _
  exact ⟨(ex2_nonempty row).1, (ex2_nonempty row).2, hex3.1, hex3.2⟩

theorem totality_jp_en_witness :
    ("パラメータ" : String) ≠ "" ∧ ("parameter" : String) ≠ "" ∧
    ((make_example2 ⟨"x", "f", "b", "パラメータ", "ぱらめーた", "parameter", "", "", ""⟩).1 ≠ "" ∧
     (make_example2 ⟨"x", "f", "b", "パラメータ", "ぱらめーた", "parameter", "", "", ""⟩).2.2 ≠ "" ∧
     (make_example3 ⟨"x", "f", "b", "パラメータ", "ぱらめーた", "parameter", "", "", ""⟩).1 ≠ "" ∧
     (make_example3 ⟨"x", "f", "b", "パラメータ", "ぱらめーた", "parameter", "", "", ""⟩).2.2 ≠ "") :=
  ⟨by decide, by decide,
   totality_jp_en ⟨"x", "f", "b", "パラメータ", "ぱらめーた", "parameter", "", "", ""⟩
     (by decide) (by decide)⟩

/-- C6, counterexample to the original claim: for the record with term
`大丈夫。` and gloss `Is it ok?` (both non-empty), the Example-2 reading
field is empty: the question branch strips the term's trailing `。`, the
aligner no longer finds the term and signals with the empty string. -/
theorem totality_cex :
    ("大丈夫。" : String) ≠ "" ∧ ("Is it ok?" : String) ≠ "" ∧
    (make_example2 ⟨"d", "f", "b", "大丈夫。", "だいじょうぶ。", "Is it ok?", "", "", ""⟩).2.1 = "" :=
  ⟨by decide, by decide, by decide⟩

/-! ## Replacement lemmas: no occurrence, unique embedded occurrence -/

theorem isPrefixOf_head {q a : Char} {ps s : List Char}
    (h : (q :: ps).isPrefixOf (a :: s) = true) : q = a := by
  obtain ⟨t, ht⟩ := List.isPrefixOf_iff_prefix.1 h
  injection ht with h1 _

theorem replaceAux_no_occur (q : Char) (ps r : List Char) :
    ∀ s : List Char, q ∉ s → replaceAux q ps r s = s := by
  intro s
  induction s with
  | nil => intro _; simp [replaceAux]
  | cons a s ih =>
    intro h
    rw [replaceAux]
    rw [if_neg]
    · rw [ih (fun hm => h (List.mem_cons_of_mem a hm))]
    · intro hpre
      exact h (isPrefixOf_head hpre ▸ List.mem_cons_self a s)

theorem replace_embed (q : Char) (ps r c2 : List Char) (hq2 : q ∉ c2) :
    ∀ c1 : List Char, q ∉ c1 →
      replaceAux q ps r (c1 ++ (q :: ps) ++ c2) = c1 ++ r ++ c2 := by
  intro c1
  induction c1 with
  | nil =>
    intro _
    show replaceAux q ps r (q :: (ps ++ c2)) = r ++ c2
    rw [replaceAux]
    rw [if_pos]
    · rw [List.drop_left, replaceAux_no_occur q ps r c2 hq2]
    · exact List.isPrefixOf_iff_prefix.2 ⟨c2, by simp⟩
  | cons a c1' ih =>
    intro ha
    show replaceAux q ps r (a :: (c1' ++ (q :: ps) ++ c2)) = a :: (c1' ++ r ++ c2)
    rw [replaceAux]
    rw [if_neg]
    · rw [ih (fun hm => ha (List.mem_cons_of_mem a hm))]
    · intro hpre
      exact ha (isPrefixOf_head hpre ▸ List.mem_cons_self a c1')

theorem pyReplace_embed (c1 t c2 r : String) (ht : t.data ≠ [])
    (hd : ∀ a ∈ t.data, a ∉ c1.data ∧ a ∉ c2.data) :
    pyReplace (c1 ++ t ++ c2) t r = c1 ++ r ++ c2 := by
  obtain ⟨q, ps, hqps⟩ : ∃ q ps, t.data = q :: ps := by
    cases hc : t.data with
    | nil => exact absurd hc ht
    | cons q ps => exact ⟨q, ps, rfl⟩
  apply String.ext
  show listReplace (c1 ++ t ++ c2).data t.data r.data = (c1 ++ r ++ c2).data
  rw [String.data_append, String.data_append, String.data_append, String.data_append, hqps]
  show replaceAux q ps r.data (c1.data ++ (q :: ps) ++ c2.data) = c1.data ++ r.data ++ c2.data
  have hq := hd q (by rw [hqps]; exact List.mem_cons_self q ps)
  exact replace_embed q ps r.data c2.data hq.2 c1.data hq.1

theorem make_reading_embed (c1 t c2 r : String) (ht : t.data ≠ [])
    (hd : ∀ a ∈ t.data, a ∉ c1.data ∧ a ∉ c2.data) :
    make_reading (c1 ++ t ++ c2) t r = c1 ++ r ++ c2 := by
  rw [make_reading, if_pos (pyIn_mid c1 c2 t)]
  exact pyReplace_embed c1 t c2 r ht hd

theorem replace_single_not_mem (c : Char) (r : List Char) (hr : c ∉ r) :
    ∀ s : List Char, c ∉ replaceAux c [] r s := by
  intro s
  induction s with
  | nil => simp [replaceAux]
  | cons a s ih =>
    rw [replaceAux]
    by_cases hq : (c :: []).isPrefixOf (a :: s) = true
    · rw [if_pos hq]
      intro hm
      rcases List.mem_append.1 hm with h | h
      · exact hr h
      · exact ih (by simpa using h)
    · rw [if_neg hq]
      intro hm
      rcases List.mem_cons.1 hm with h | h
      · exact hq (List.isPrefixOf_iff_prefix.2 ⟨s, by simp [h]⟩)
      · exact ih h

theorem pyReplace_single_not_mem {p : String} {c : Char} (hp : p.data = [c])
    (s r : String) (hr : c ∉ r.data) : c ∉ (pyReplace s p r).data := by
  show c ∉ listReplace s.data p.data r.data
  rw [hp]
  exact replace_single_not_mem c r.data hr s.data

/-! ## Strip lemmas and the phonetic character class -/

theorem pyStrip_subset (s : String) : ∀ c ∈ (pyStrip s).data, c ∈ s.data := by
  intro c hc
  have h1 : c ∈ (s.data.dropWhile pyIsSpace).reverse.dropWhile pyIsSpace :=
    List.mem_reverse.1 hc
  have h2 : c ∈ (s.data.dropWhile pyIsSpace).reverse :=
    (List.dropWhile_sublist pyIsSpace).subset h1
  exact (List.dropWhile_sublist pyIsSpace).subset (List.mem_reverse.1 h2)

theorem mem_of_getLast? {l : List Char} {c : Char} (h : l.getLast? = some c) : c ∈ l := by
  obtain ⟨w, hw⟩ := (suffix_singleton_iff c l).2 h
  rw [← hw]
  simp

theorem getLast?_of_suffix {l₁ l₂ : List Char} (h : l₁ <:+ l₂) (hne : l₁ ≠ []) :
    l₂.getLast? = l₁.getLast? := by
  obtain ⟨w, rfl⟩ := h
  rcases l₁.eq_nil_or_concat with rfl | ⟨l', a, rfl⟩
  · exact absurd rfl hne
  · simp [List.getLast?_append]

theorem pyStrip_last_nonspace (s : String) {c : Char} (h : s.data.getLast? = some c)
    (hns : pyIsSpace c = false) : (pyStrip s).data ≠ [] := by
  have hdl : s.data.dropWhile pyIsSpace ≠ [] := by
    intro hnil
    have := List.dropWhile_eq_nil_iff.1 hnil c (mem_of_getLast? h)
    rw [hns] at this
    exact absurd this (by simp)
  have hlast : (s.data.dropWhile pyIsSpace).getLast? = some c := by
    rw [getLast?_of_suffix (List.dropWhile_suffix pyIsSpace) hdl] at h
    exact h
  have hhead : (s.data.dropWhile pyIsSpace).reverse.head? = some c := by
    rw [List.head?_reverse]
    exact hlast
  show ((s.data.dropWhile pyIsSpace).reverse.dropWhile pyIsSpace).reverse ≠ []
  rw [dropWhile_head_false]
  · simp [hdl]
  · intro a ha
    rw [hhead] at ha
    injection ha with ha
    rw [ha] at hns
    exact hns

theorem pyRstrip_length_le (s : String) (c : Char) :
    (pyRstrip s c).data.length ≤ s.data.length := by
  show ((s.data.reverse.dropWhile _).reverse).length ≤ _
  rw [List.length_reverse]
  calc (s.data.reverse.dropWhile (· = c)).length
      ≤ s.data.reverse.length := (List.dropWhile_sublist _).length_le
    _ = s.data.length := List.length_reverse _

/-- Sufficient condition for `is_hiraganaish`: every character lies in the
class and the last character is not whitespace. -/
theorem is_hiraganaish_of (s : String)
    (hall : ∀ c ∈ s.data, hiraganaishChar c = true)
    {c : Char} (hl : s.data.getLast? = some c) (hns : pyIsSpace c = false) :
    is_hiraganaish s = true := by
  have h1 := pyStrip_last_nonspace s hl hns
  have h2 : (pyStrip s).data.all hiraganaishChar = true :=
    List.all_eq_true.2 (fun d hd => hall d (pyStrip_subset s d hd))
  simp [is_hiraganaish, h2, h1]

theorem not_allowed_disjoint (jp p : String)
    (hx : jp.data.all (fun c => !hiraganaishChar c) = true)
    (hp : p.data.all hiraganaishChar = true) : ∀ a ∈ jp.data, a ∉ p.data := by
  intro a ha hmem
  have h1 := List.all_eq_true.1 hx a ha
  have h2 := List.all_eq_true.1 hp a hmem
  rw [h2] at h1
  exact absurd h1 (by simp)

theorem last_not_allowed (jp : String) (hne : jp.data ≠ [])
    (hx : jp.data.all (fun c => !hiraganaishChar c) = true) :
    ∃ a, jp.data.getLast? = some a ∧ hiraganaishChar a = false := by
  rcases jp.data.eq_nil_or_concat with hnil | ⟨l', a, hc⟩
  · exact absurd hnil hne
  · refine ⟨a, by rw [hc, List.concat_eq_append, List.getLast?_concat], ?_⟩
    have := List.all_eq_true.1 hx a (by rw [hc]; simp)
    simpa using this

theorem ends_char_mem (s t : String) (h : pyEndsWith s t = true) {c : Char}
    (hc : c ∈ t.data) : c ∈ s.data := by
  obtain ⟨w, hw⟩ := (pyEndsWith_iff s t).1 h
  rw [← hw]
  exact List.mem_append_right w hc

theorem not_ends_of_allowed (jp t : String)
    (hx : jp.data.all (fun c => !hiraganaishChar c) = true)
    {c : Char} (hct : c ∈ t.data) (hca : hiraganaishChar c = true) :
    pyEndsWith jp t = false := by
  cases hcase : pyEndsWith jp t with
  | false => rfl
  | true =>
    have hmem := ends_char_mem jp t hcase hct
    have := List.all_eq_true.1 hx c hmem
    rw [hca] at this
    exact absurd this (by simp)

theorem pyIn_single_mem {t : String} {c : Char} (ht : t.data = [c]) (s : String)
    (h : pyIn t s = true) : c ∈ s.data := by
  obtain ⟨p, q, he⟩ := (pyIn_iff t s).1 h
  rw [ht] at he
  rw [← he]
  simp

/-! ## C9: validation of synthesized output -/

theorem exists_cons_of_ne_nil {l : List Char} (h : l ≠ []) : ∃ q ps, l = q :: ps := by
  cases l with
  | nil => exact absurd rfl h
  | cons q ps => exact ⟨q, ps, rfl⟩

theorem mem_first_split {c : Char} : ∀ {l : List Char}, c ∈ l →
    ∃ l₁ l₂, l = l₁ ++ c :: l₂ ∧ c ∉ l₁ := by
  intro l
  induction l with
  | nil => intro hc; simp at hc
  | cons a l ih =>
    intro hc
    by_cases hac : c = a
    · exact ⟨[], l, by rw [hac]; rfl, by simp⟩
    · have hcl : c ∈ l := by
        rcases List.mem_cons.1 hc with h | h
        · exact absurd h hac
        · exact h
      obtain ⟨l₁, l₂, he, hn⟩ := ih hcl
      refine ⟨a :: l₁, l₂, by rw [he]; rfl, ?_⟩
      intro hm
      rcases List.mem_cons.1 hm with h | h
      · exact hac h
      · exact hn h

theorem first_occ_len_eq {c : Char} : ∀ (t₁ p₁ x y : List Char), c ∉ t₁ → c ∉ p₁ →
    t₁ ++ c :: x = p₁ ++ c :: y → t₁.length = p₁.length := by
  intro t₁
  induction t₁ with
  | nil =>
    intro p₁ x y _ hp he
    cases p₁ with
    | nil => rfl
    | cons b p₁' =>
      injection he with h1 _
      have : c ∈ b :: p₁' := by rw [h1]; exact List.mem_cons_self b p₁'
      exact absurd this hp
  | cons a t₁' ih =>
    intro p₁ x y ht hp he
    cases p₁ with
    | nil =>
      injection he with h1 _
      have : c ∈ a :: t₁' := by rw [← h1]; exact List.mem_cons_self a t₁'
      exact absurd this ht
    | cons b p₁' =>
      injection he with h1 h2
      have ht' : c ∉ t₁' := fun hm => ht (List.mem_cons_of_mem a hm)
      have hp' : c ∉ p₁' := fun hm => hp (List.mem_cons_of_mem b hm)
      simp only [List.length_cons, ih p₁' x y ht' hp' h2]

/-- A pattern with a character that occurs in neither of the surrounding
contexts only occurs at the marked position: it is not a prefix of
`P ++ t ++ s` when `P` is non-empty. -/
theorem not_prefix_anchor {c : Char} {t P s : List Char} (hct : c ∈ t) (hcP : c ∉ P)
    (hcs : c ∉ s) (hPne : P ≠ []) : ¬ t <+: P ++ t ++ s := by
  rintro ⟨w, hw⟩
  obtain ⟨t₁, t₂, ht, hnt₁⟩ := mem_first_split hct
  rw [ht] at hw
  have hw' : t₁ ++ c :: (t₂ ++ w) = (P ++ t₁) ++ c :: (t₂ ++ s) := by
    simpa only [List.append_assoc, List.cons_append] using hw
  have hcPt : c ∉ P ++ t₁ := by
    intro hm
    rcases List.mem_append.1 hm with h | h
    · exact hcP h
    · exact hnt₁ h
  have hlen := first_occ_len_eq t₁ (P ++ t₁) (t₂ ++ w) (t₂ ++ s) hnt₁ hcPt hw'
  rw [List.length_append] at hlen
  exact hPne (List.length_eq_zero.1 (by omega))

theorem replaceAux_no_occur_mem (r : List Char) {q : Char} {ps : List Char} {c : Char}
    (hct : c ∈ q :: ps) : ∀ s : List Char, c ∉ s → replaceAux q ps r s = s := by
  intro s
  induction s with
  | nil => intro _; simp [replaceAux]
  | cons a s ih =>
    intro h
    rw [replaceAux, if_neg, ih (fun hm => h (List.mem_cons_of_mem a hm))]
    intro hpre
    exact h ((List.isPrefixOf_iff_prefix.1 hpre).subset hct)

/-- Anchored replacement: when the pattern has a character that occurs in
neither surrounding context, the only occurrence is the marked one. -/
theorem replace_anchor (q : Char) (ps r : List Char) {c : Char} (hct : c ∈ q :: ps) :
    ∀ (p s : List Char), c ∉ p → c ∉ s →
      replaceAux q ps r (p ++ (q :: ps) ++ s) = p ++ r ++ s := by
  intro p
  induction p with
  | nil =>
    intro s _ hcs
    show replaceAux q ps r (q :: (ps ++ s)) = r ++ s
    rw [replaceAux, if_pos]
    · rw [List.drop_left, replaceAux_no_occur_mem r hct s hcs]
    · exact List.isPrefixOf_iff_prefix.2 ⟨s, by simp⟩
  | cons a p' ih =>
    intro s ha hcs
    show replaceAux q ps r (a :: (p' ++ (q :: ps) ++ s)) = a :: (p' ++ r ++ s)
    rw [replaceAux, if_neg, ih s (fun hm => ha (List.mem_cons_of_mem a hm)) hcs]
    intro hpre
    have hpre' : (q :: ps) <+: (a :: p') ++ (q :: ps) ++ s := by
      simpa using List.isPrefixOf_iff_prefix.1 hpre
    exact not_prefix_anchor hct ha hcs (by simp) hpre'

theorem pyReplace_anchor (p t s r : String) {c : Char} (hct : c ∈ t.data)
    (hcp : c ∉ p.data) (hcs : c ∉ s.data) :
    pyReplace (p ++ t ++ s) t r = p ++ r ++ s := by
  obtain ⟨q, ps, hqps⟩ := exists_cons_of_ne_nil (List.ne_nil_of_mem hct)
  apply String.ext
  show listReplace (p ++ t ++ s).data t.data r.data = (p ++ r ++ s).data
  rw [String.data_append, String.data_append, String.data_append, String.data_append, hqps]
  exact replace_anchor q ps r.data (hqps ▸ hct) p.data s.data hcp hcs

theorem replaceAux_subset (q : Char) (ps r : List Char) :
    ∀ (n : Nat) (s : List Char), s.length ≤ n →
      ∀ ch ∈ replaceAux q ps r s, ch ∈ s ∨ ch ∈ r := by
  intro n
  induction n with
  | zero =>
    intro s hlen ch hch
    have hs : s = [] := List.length_eq_zero.1 (Nat.le_zero.1 hlen)
    rw [hs] at hch
    simp [replaceAux] at hch
  | succ n ih =>
    intro s hlen ch hch
    cases s with
    | nil => simp [replaceAux] at hch
    | cons a s' =>
      have hlen' : s'.length ≤ n := by
        simp only [List.length_cons] at hlen
        omega
      rw [replaceAux] at hch
      by_cases hpre : (q :: ps).isPrefixOf (a :: s') = true
      · rw [if_pos hpre] at hch
        rcases List.mem_append.1 hch with h | h
        · exact Or.inr h
        · have hdlen : (s'.drop ps.length).length ≤ n := by
            rw [List.length_drop]
            omega
          rcases ih _ hdlen ch h with h' | h'
          · exact Or.inl (List.mem_cons_of_mem a (List.drop_subset _ _ h'))
          · exact Or.inr h'
      · rw [if_neg hpre] at hch
        rcases List.mem_cons.1 hch with h | h
        · exact Or.inl (by rw [h]; exact List.mem_cons_self a s')
        · rcases ih s' hlen' ch h with h' | h'
          · exact Or.inl (List.mem_cons_of_mem a h')
          · exact Or.inr h'

/-- Every character of a replacement result comes from the source or from
the replacement text. -/
theorem pyReplace_subset (s t r : String) (ht : t.data ≠ []) :
    ∀ ch ∈ (pyReplace s t r).data, ch ∈ s.data ∨ ch ∈ r.data := by
  intro ch hch
  obtain ⟨q, ps, hqps⟩ := exists_cons_of_ne_nil ht
  have hch' : ch ∈ replaceAux q ps r.data s.data := by
    have he : (pyReplace s t r).data = replaceAux q ps r.data s.data := by
      show listReplace s.data t.data r.data = _
      rw [hqps]
      rfl
    rwa [he] at hch
  exact replaceAux_subset q ps r.data s.data.length s.data le_rfl ch hch'

theorem replaceAux_r_infix (q : Char) (ps r : List Char) :
    ∀ (n : Nat) (s : List Char), s.length ≤ n → listIn (q :: ps) s = true →
      ∃ u v, replaceAux q ps r s = u ++ r ++ v := by
  intro n
  induction n with
  | zero =>
    intro s hlen hin
    have hs : s = [] := List.length_eq_zero.1 (Nat.le_zero.1 hlen)
    rw [hs] at hin
    simp [listIn, List.isPrefixOf_iff_prefix] at hin
  | succ n ih =>
    intro s hlen hin
    cases s with
    | nil => simp [listIn, List.isPrefixOf_iff_prefix] at hin
    | cons a s' =>
      have hlen' : s'.length ≤ n := by
        simp only [List.length_cons] at hlen
        omega
      rw [replaceAux]
      by_cases hpre : (q :: ps).isPrefixOf (a :: s') = true
      · rw [if_pos hpre]
        exact ⟨[], replaceAux q ps r (s'.drop ps.length), by simp⟩
      · rw [if_neg hpre]
        have hpre' : (q :: ps).isPrefixOf (a :: s') = false := by
          cases hq : (q :: ps).isPrefixOf (a :: s') with
          | false => rfl
          | true => exact absurd hq hpre
        rw [listIn, hpre', Bool.false_or] at hin
        obtain ⟨u, v, he⟩ := ih s' hlen' hin
        exact ⟨a :: u, v, by rw [he]; rfl⟩

/-- When the pattern occurs in the source, the replacement text appears in
the result. -/
theorem pyReplace_r_mem (s t r : String) (ht : t.data ≠ []) (hin : pyIn t s = true)
    {c : Char} (hc : c ∈ r.data) : c ∈ (pyReplace s t r).data := by
  obtain ⟨q, ps, hqps⟩ := exists_cons_of_ne_nil ht
  have hin' : listIn (q :: ps) s.data = true := by
    have : listIn t.data s.data = true := hin
    rwa [hqps] at this
  obtain ⟨u, v, he⟩ := replaceAux_r_infix q ps r.data s.data.length s.data le_rfl hin'
  have hd : (pyReplace s t r).data = u ++ r.data ++ v := by
    show listReplace s.data t.data r.data = _
    rw [hqps]
    exact he
  rw [hd]
  exact List.mem_append.2 (Or.inl (List.mem_append.2 (Or.inr hc)))

theorem mem_dropWhile_of_not {p : Char → Bool} {c : Char} {l : List Char}
    (hc : c ∈ l) (hp : p c = false) : c ∈ l.dropWhile p := by
  have hsplit := List.takeWhile_append_dropWhile (p := p) (l := l)
  rw [← hsplit] at hc
  rcases List.mem_append.1 hc with h | h
  · have := List.mem_takeWhile_imp h
    rw [hp] at this
    exact absurd this (by simp)
  · exact h

theorem pyStrip_mem_nonempty (s : String) {c : Char} (hc : c ∈ s.data)
    (hns : pyIsSpace c = false) : (pyStrip s).data ≠ [] := by
  have h1 : c ∈ s.data.dropWhile pyIsSpace := mem_dropWhile_of_not hc hns
  have h2 : c ∈ (s.data.dropWhile pyIsSpace).reverse := List.mem_reverse.2 h1
  have h3 : c ∈ (s.data.dropWhile pyIsSpace).reverse.dropWhile pyIsSpace :=
    mem_dropWhile_of_not h2 hns
  exact List.ne_nil_of_mem (List.mem_reverse.2 h3)

/-- Sufficient condition for `is_hiraganaish`: every character lies in the
class and some character is not whitespace. -/
theorem is_hiraganaish_of_mem (s : String)
    (hall : ∀ c ∈ s.data, hiraganaishChar c = true)
    {c : Char} (hc : c ∈ s.data) (hns : pyIsSpace c = false) :
    is_hiraganaish s = true := by
  have h1 := pyStrip_mem_nonempty s hc hns
  have h2 : (pyStrip s).data.all hiraganaishChar = true :=
    List.all_eq_true.2 (fun d hd => hall d (pyStrip_subset s d hd))
  simp [is_hiraganaish, h2, h1]

theorem pyStrip_length_le (s : String) : (pyStrip s).data.length ≤ s.data.length := by
  show (((s.data.dropWhile pyIsSpace).reverse.dropWhile pyIsSpace).reverse).length ≤ _
  rw [List.length_reverse]
  calc ((s.data.dropWhile pyIsSpace).reverse.dropWhile pyIsSpace).length
      ≤ (s.data.dropWhile pyIsSpace).reverse.length := (List.dropWhile_sublist _).length_le
    _ = (s.data.dropWhile pyIsSpace).length := List.length_reverse _
    _ ≤ s.data.length := (List.dropWhile_sublist _).length_le

theorem enStripped_length_le (en : String) :
    (enStripped en).data.length ≤ en.data.length :=
  le_trans (pyRstrip_length_le _ _) (pyStrip_length_le en)

theorem str_append_empty (s : String) : s ++ "" = s := by
  apply String.ext
  simp [String.data_append]

/-- Any template fill `p ++ jp ++ s` with in-class template constants and
a phonetic, not-all-whitespace reading passes `validate_example2`,
whatever the term: a term made of in-class characters keeps the whole
reading field in-class under any replacement, and a term with an
out-of-class character occurs only at the marked position, so the reading
field is exactly `p ++ hira ++ s`. -/
theorem validate_fill_ok (p s en_out jp hira : String)
    (hjpne : jp.data ≠ [])
    (hjlen : jp.data.length ≤ 120)
    (hhira : hira.data.all hiraganaishChar = true)
    (hwit : ∃ c ∈ hira.data, pyIsSpace c = false)
    (hp : p.data.all hiraganaishChar = true)
    (hs : s.data.all hiraganaishChar = true)
    (hplen : p.data.length + s.data.length ≤ 20)
    (hout : en_out.data.length ≤ 200) :
    validate_example2 (p ++ jp ++ s) (make_reading (p ++ jp ++ s) jp hira) en_out jp = none := by
  have hin : pyIn jp (p ++ jp ++ s) = true := pyIn_mid p s jp
  rw [make_reading, if_pos hin]
  obtain ⟨cw, hcw, hcwns⟩ := hwit
  have hjplen2 : ¬ 140 < (p ++ jp ++ s).data.length := by
    simp only [String.data_append, List.length_append]
    omega
  have hh : is_hiraganaish (pyReplace (p ++ jp ++ s) jp hira) = true := by
    by_cases hA : jp.data.all hiraganaishChar = true
    · refine is_hiraganaish_of_mem _ ?_ (pyReplace_r_mem _ _ _ hjpne hin hcw) hcwns
      intro ch hch
      rcases pyReplace_subset _ _ _ hjpne ch hch with h | h
      · simp only [String.data_append, List.mem_append] at h
        rcases h with (h | h) | h
        · exact List.all_eq_true.1 hp ch h
        · exact List.all_eq_true.1 hA ch h
        · exact List.all_eq_true.1 hs ch h
      · exact List.all_eq_true.1 hhira ch h
    · obtain ⟨c, hct, hcx⟩ : ∃ c ∈ jp.data, hiraganaishChar c = false := by
        by_contra hno
        push_neg at hno
        refine hA (List.all_eq_true.2 (fun d hd => ?_))
        cases hcd : hiraganaishChar d with
        | false => exact absurd hcd (hno d hd)
        | true => rfl
      have hcp : c ∉ p.data := by
        intro hm
        have h1 := List.all_eq_true.1 hp c hm
        rw [h1] at hcx
        exact absurd hcx (by simp)
      have hcs : c ∉ s.data := by
        intro hm
        have h1 := List.all_eq_true.1 hs c hm
        rw [h1] at hcx
        exact absurd hcx (by simp)
      rw [pyReplace_anchor p jp s hira hct hcp hcs]
      refine is_hiraganaish_of_mem _ ?_ ?_ hcwns
      · intro ch hch
        simp only [String.data_append, List.mem_append] at hch
        rcases hch with (h | h) | h
        · exact List.all_eq_true.1 hp ch h
        · exact List.all_eq_true.1 hhira ch h
        · exact List.all_eq_true.1 hs ch h
      · show cw ∈ (p ++ hira ++ s).data
        simp only [String.data_append, List.mem_append]
        exact Or.inl (Or.inr hcw)
  rw [validate_example2, if_neg (by simp [hin]), if_neg (by simp [hh]),
    if_neg hjplen2, if_neg (by omega)]

theorem not_ends_single_of_last {s : String} {a : Char} (hl : s.data.getLast? = some a)
    (t : String) {c : Char} (ht : t.data = [c]) (hne : a ≠ c) : pyEndsWith s t = false := by
  cases hcase : pyEndsWith s t with
  | false => rfl
  | true =>
    have := (pyEndsWith_single ht s).1 hcase
    rw [hl] at this
    injection this with h
    exact absurd h hne

theorem question_jp_shape_pre (pre jp : String) {a : Char} (hja : jp.data.getLast? = some a)
    (hka : a ≠ 'か') (hqa : a ≠ '？') (hda : a ≠ '。') :
    (if !pyEndsWith (pre ++ jp) "か" && !pyEndsWith (pre ++ jp) "？" then
        pyRstrip (pre ++ jp) '。' ++ "？"
      else pre ++ jp) = pre ++ jp ++ "？" := by
  have hl : (pre ++ jp).data.getLast? = some a := by
    rw [getLast?_str_append, hja]
    rfl
  rw [if_pos, pyRstrip_id _ _ (by rw [hl]; intro h; injection h with h; exact hda h)]
  simp [not_ends_single_of_last hl "か" rfl hka, not_ends_single_of_last hl "？" rfl hqa]

theorem question_jp_shape_dot (jp : String) {a : Char} (hja : jp.data.getLast? = some a)
    (hda : a ≠ '。') :
    (if !pyEndsWith (jp ++ "。") "か" && !pyEndsWith (jp ++ "。") "？" then
        pyRstrip (jp ++ "。") '。' ++ "？"
      else jp ++ "。") = jp ++ "？" := by
  have hl : (jp ++ "。").data.getLast? = some '。' := by
    rw [getLast?_str_append]
    rfl
  rw [if_pos, pyRstrip_append_dot jp (by rw [hja]; intro h; injection h with h; exact hda h)]
  simp [not_ends_single_of_last hl "か" rfl (by decide), not_ends_single_of_last hl "？" rfl (by decide)]

theorem en_post_len (x : String) (hx : x.data.length ≤ 199) :
    (if !pyEndsWith x "?" then x ++ "?" else x).data.length ≤ 200 := by
  split
  · simp only [String.data_append, List.length_append, List.length_cons, List.length_nil]
    omega
  · omega

theorem fillEn_len_le (pe se en : String) (h40 : pe.data.length + se.data.length ≤ 40)
    (hen : en.data.length ≤ 160) : (pe ++ en ++ se).data.length ≤ 200 := by
  simp only [String.data_append, List.length_append]
  omega

theorem questionOut_valid (row : Row)
    (hjd : row.japanese.data ≠ [])
    (hdot : pyEndsWith row.japanese "。" = false)
    (hjlen : row.japanese.data.length ≤ 120)
    (hhira : row.hiragana.data.all hiraganaishChar = true)
    (hwit : ∃ c ∈ row.hiragana.data, pyIsSpace c = false)
    (helen : row.english.data.length ≤ 160) :
    validate_example2 (questionOut row).1 (questionOut row).2.1 (questionOut row).2.2
      row.japanese = none := by
  obtain ⟨a, hja⟩ : ∃ a, row.japanese.data.getLast? = some a := by
    rcases row.japanese.data.eq_nil_or_concat with h | ⟨l', a, hc⟩
    · exact absurd h hjd
    · exact ⟨a, by rw [hc, List.concat_eq_append, List.getLast?_concat]⟩
  have hda : a ≠ '。' := by
    intro h
    rw [h] at hja
    rw [(pyEndsWith_single (rfl : ("。" : String).data = ['。']) row.japanese).2 hja] at hdot
    exact absurd hdot (by decide)
  unfold questionOut
  dsimp only
  have hi : pick_index (seedOf row ++ "|v4") 3 < 3 := pick_index_lt _ _ (by omega)
  revert hi
  generalize pick_index (seedOf row ++ "|v4") 3 = i
  intro hi
  have he4 : (pyRstrip (pyRstrip row.english '?') '.').data.length ≤ 160 :=
    le_trans (pyRstrip_length_le _ _) (le_trans (pyRstrip_length_le _ _) helen)
  interval_cases i <;>
    simp only [List.getD_cons_zero, List.getD_cons_succ]
  · by_cases hka : a = 'か'
    · have hend : pyEndsWith ("このへんこうで" ++ row.japanese) "か" = true :=
        (pyEndsWith_single (rfl : ("か" : String).data = ['か']) _).2
          (by rw [getLast?_str_append, hja, hka]; rfl)
      rw [if_neg (by simp [hend])]
      have hv := validate_fill_ok "このへんこうで" "" _ row.japanese row.hiragana hjd hjlen
        hhira hwit (by decide) (by decide) (by decide)
        (en_post_len "Is there any impact from this change?" (by decide))
      rw [str_append_empty] at hv
      exact hv
    · by_cases hqm : a = '？'
      · have hend : pyEndsWith ("このへんこうで" ++ row.japanese) "？" = true :=
          (pyEndsWith_single (rfl : ("？" : String).data = ['？']) _).2
            (by rw [getLast?_str_append, hja, hqm]; rfl)
        rw [if_neg (by simp [hend])]
        have hv := validate_fill_ok "このへんこうで" "" _ row.japanese row.hiragana hjd hjlen
          hhira hwit (by decide) (by decide) (by decide)
          (en_post_len "Is there any impact from this change?" (by decide))
        rw [str_append_empty] at hv
        exact hv
      · rw [question_jp_shape_pre "このへんこうで" row.japanese hja hka hqm hda]
        exact validate_fill_ok "このへんこうで" "？" _ _ _ hjd hjlen hhira hwit
          (by decide) (by decide) (by decide)
          (en_post_len _ (by decide))
  · rw [question_jp_shape_dot row.japanese hja hda]
    exact validate_fill_ok "" "？" _ _ _ hjd hjlen hhira hwit
      (by decide) (by decide) (by decide)
      (en_post_len _ (by
        simp only [String.data_append, List.length_append, List.length_cons, List.length_nil]
        omega))
  · by_cases hka : a = 'か'
    · have hend : pyEndsWith ("いまのじょうきょうで" ++ row.japanese) "か" = true :=
        (pyEndsWith_single (rfl : ("か" : String).data = ['か']) _).2
          (by rw [getLast?_str_append, hja, hka]; rfl)
      rw [if_neg (by simp [hend])]
      have hv := validate_fill_ok "いまのじょうきょうで" "" _ row.japanese row.hiragana hjd
        hjlen hhira hwit (by decide) (by decide) (by decide)
        (en_post_len (pyRstrip (pyRstrip row.english '?') '.' ++ "?") (by
          simp only [String.data_append, List.length_append, List.length_cons, List.length_nil]
          omega))
      rw [str_append_empty] at hv
      exact hv
    · by_cases hqm : a = '？'
      · have hend : pyEndsWith ("いまのじょうきょうで" ++ row.japanese) "？" = true :=
          (pyEndsWith_single (rfl : ("？" : String).data = ['？']) _).2
            (by rw [getLast?_str_append, hja, hqm]; rfl)
        rw [if_neg (by simp [hend])]
        have hv := validate_fill_ok "いまのじょうきょうで" "" _ row.japanese row.hiragana hjd
          hjlen hhira hwit (by decide) (by decide) (by decide)
          (en_post_len (pyRstrip (pyRstrip row.english '?') '.' ++ "?") (by
            simp only [String.data_append, List.length_append, List.length_cons, List.length_nil]
            omega))
        rw [str_append_empty] at hv
        exact hv
      · rw [question_jp_shape_pre "いまのじょうきょうで" row.japanese hja hka hqm hda]
        exact validate_fill_ok "いまのじょうきょうで" "？" _ _ _ hjd hjlen hhira hwit
          (by decide) (by decide) (by decide)
          (en_post_len _ (by
            simp only [String.data_append, List.length_append, List.length_cons, List.length_nil]
            omega))

/-- C9 (amended): for every record whose term is non-empty, free of the
placeholder marker `〜`, does not end in `。`, and is at most 120
characters, whose reading consists of phonetic-class characters and is
not entirely whitespace, and whose gloss is at most 160 characters, the
triple synthesized by `make_example2` passes `validate_example2`.  (The
original claim fails on terms the question branch mutilates, on
placeholder terms, and on over-long terms or glosses; no restriction on
the term's character classes is needed.) -/
theorem round_trip_validation (row : Row)
    (hjpne : row.japanese ≠ "")
    (hph : pyIn "〜" row.japanese = false)
    (hdot : pyEndsWith row.japanese "。" = false)
    (hjlen : row.japanese.data.length ≤ 120)
    (hhira : row.hiragana.data.all hiraganaishChar = true)
    (hwit : ∃ c ∈ row.hiragana.data, pyIsSpace c = false)
    (helen : row.english.data.length ≤ 160) :
    validate_example2 (make_example2 row).1 (make_example2 row).2.1
      (make_example2 row).2.2 row.japanese = none := by
  have hjd : row.japanese.data ≠ [] := fun h => hjpne (String.ext h)
  cases hsp : specials.lookup row.japanese with
  | some v =>
    rw [ex2_special row v hsp]
    have hmem := lookup_mem specials row.japanese v hsp
    simp only [specials, List.mem_cons, List.not_mem_nil, or_false, Prod.mk.injEq] at hmem
    rcases hmem with ⟨h1, h2⟩ | ⟨h1, h2⟩ | ⟨h1, h2⟩ | ⟨h1, h2⟩ | ⟨h1, h2⟩ | ⟨h1, h2⟩ <;>
      rw [h1, h2] <;> decide
  | none =>
  cases hqc : (pyEndsWith row.japanese "は" &&
      (pyIn "?" row.english || pyIn "evidence" (pyLower row.english))) with
  | true =>
    rw [ex2_q1 row hsp hph hqc]
    dsimp only
    obtain ⟨cw, hcw, hcwns⟩ := hwit
    have hh : is_hiraganaish (row.hiragana ++ "ありますか。") = true := by
      refine is_hiraganaish_of_mem _ ?_ ?_ hcwns
      · intro ch hch
        simp only [String.data_append, List.mem_append] at hch
        rcases hch with h | h
        · exact List.all_eq_true.1 hhira ch h
        · exact (show ∀ c ∈ ("ありますか。" : String).data, hiraganaishChar c = true by decide)
            ch h
      · show cw ∈ (row.hiragana ++ "ありますか。").data
        simp only [String.data_append, List.mem_append]
        exact Or.inl hcw
    rw [validate_example2, if_neg (by simp [pyIn_right]), if_neg (by simp [hh]),
      if_neg (by
        have h6 : ("ありますか。" : String).data.length = 6 := rfl
        simp only [String.data_append, List.length_append, h6]
        omega),
      if_neg (by decide)]
  | false =>
  cases hv1 : pyEndsWith row.japanese "します" with
  | true =>
    rw [ex2_v1 row hsp hph hqc hv1]
    obtain ⟨fr, hmem, heq⟩ := runFrames_mem framesV1 (by decide) _ _ _ _
    rw [heq]
    fin_cases hmem <;>
      exact validate_fill_ok _ _ _ _ _ hjd hjlen hhira hwit (by decide) (by decide)
        (by decide)
        (fillEn_len_le _ _ _ (by decide) (le_trans (enStripped_length_le _) helen))
  | false =>
  cases hv2 : pyEndsWith row.japanese "ください" with
  | true =>
    rw [ex2_v2 row hsp hph hqc hv1 hv2]
    obtain ⟨fr, hmem, heq⟩ := runFrames_mem framesV2 (by decide) _ _ _ _
    rw [heq]
    fin_cases hmem <;>
      exact validate_fill_ok _ _ _ _ _ hjd hjlen hhira hwit (by decide) (by decide)
        (by decide)
        (fillEn_len_le _ _ _ (by decide) (le_trans (enStripped_length_le _) helen))
  | false =>
  cases hv3 : (pyEndsWith row.deck "meeting_phrases" &&
      (row.japanese == "念のため" || row.japanese == "追加で")) with
  | true =>
    rw [ex2_v3 row hsp hph hqc hv1 hv2 hv3]
    obtain ⟨fr, hmem, heq⟩ := runFrames_mem framesV3 (by decide) _ _ _ _
    rw [heq]
    fin_cases hmem <;>
      exact validate_fill_ok _ _ _ _ _ hjd hjlen hhira hwit (by decide) (by decide)
        (by decide)
        (fillEn_len_le _ _ _ (by decide) (le_trans (enStripped_length_le _) helen))
  | false =>
  cases hv4 : (pyEndsWith row.japanese "か" || pyEndsWith (pyStrip row.english) "?") with
  | true =>
    rw [ex2_v4 row hsp hph hqc hv1 hv2 hv3 hv4]
    exact questionOut_valid row hjd hdot hjlen hhira hwit helen
  | false =>
  cases hv5 : pyEndsWith row.japanese "です" with
  | true =>
    rw [ex2_v5 row hsp hph hqc hv1 hv2 hv3 hv4 hv5]
    obtain ⟨fr, hmem, heq⟩ := runFrames_mem framesV5 (by decide) _ _ _ _
    rw [heq]
    fin_cases hmem <;>
      exact validate_fill_ok _ _ _ _ _ hjd hjlen hhira hwit (by decide) (by decide)
        (by decide) (fillEn_len_le _ _ _ (by decide) helen)
  | false =>
  cases hm : pyEndsWith row.deck "meeting_phrases" with
  | true =>
    rw [ex2_m1 row hsp hph hqc hv1 hv2 hv3 hv4 hv5 hm]
    obtain ⟨fr, hmem, heq⟩ := runFrames_mem framesM1 (by decide) _ _ _ _
    rw [heq]
    fin_cases hmem <;>
      exact validate_fill_ok _ _ _ _ _ hjd hjlen hhira hwit (by decide) (by decide)
        (by decide) (fillEn_len_le _ _ _ (by decide) helen)
  | false =>
    rw [ex2_t1 row hsp hph hqc hv1 hv2 hv3 hv4 hv5 hm]
    obtain ⟨fr, hmem, heq⟩ := runFrames_mem framesT1 (by decide) _ _ _ _
    rw [heq]
    fin_cases hmem <;>
      exact validate_fill_ok _ _ _ _ _ hjd hjlen hhira hwit (by decide) (by decide)
        (by decide) (fillEn_len_le _ _ _ (by decide) helen)

theorem round_trip_validation_witness :
    validate_example2
      (make_example2
        ⟨"03_tech_verbs", "f", "b", "確認します", "かくにんします", "I'll confirm", "", "", ""⟩).1
      (make_example2
        ⟨"03_tech_verbs", "f", "b", "確認します", "かくにんします", "I'll confirm", "", "", ""⟩).2.1
      (make_example2
        ⟨"03_tech_verbs", "f", "b", "確認します", "かくにんします", "I'll confirm", "", "", ""⟩).2.2
      "確認します" = none :=
  round_trip_validation
    ⟨"03_tech_verbs", "f", "b", "確認します", "かくにんします", "I'll confirm", "", "", ""⟩
    (by decide) (by decide) (by decide) (by decide) (by decide) (by decide) (by decide)

/-- C9, counterexample to the original claim: the record with term
`大丈夫。`, non-empty fully phonetic reading and non-empty gloss produces
an Example-2 triple that the validation predicate rejects (the question
branch strips the trailing `。`, so the term is absent from the
sentence). -/
theorem round_trip_validation_cex :
    ("大丈夫。" : String) ≠ "" ∧ ("だいじょうぶ。" : String) ≠ "" ∧
    ("Is it ok?" : String) ≠ "" ∧ is_hiraganaish "だいじょうぶ。" = true ∧
    validate_example2
      (make_example2 ⟨"d", "f", "b", "大丈夫。", "だいじょうぶ。", "Is it ok?", "", "", ""⟩).1
      (make_example2 ⟨"d", "f", "b", "大丈夫。", "だいじょうぶ。", "Is it ok?", "", "", ""⟩).2.1
      (make_example2 ⟨"d", "f", "b", "大丈夫。", "だいじょうぶ。", "Is it ok?", "", "", ""⟩).2.2
      "大丈夫。" ≠ none :=
  ⟨by decide, by decide, by decide, by decide, by decide⟩

/-! ## C5: Example-2 and Example-3 never coincide -/

theorem pyEndsWith_getLast? (s t : String) (h : pyEndsWith s t = true) (hne : t.data ≠ []) :
    s.data.getLast? = t.data.getLast? :=
  getLast?_of_suffix ((pyEndsWith_iff s t).1 h) hne

theorem ends_conflict {s t1 t2 : String} (h1 : pyEndsWith s t1 = true)
    (hne1 : t1.data ≠ []) (hne2 : t2.data ≠ [])
    (hl : t1.data.getLast? ≠ t2.data.getLast?) : pyEndsWith s t2 = false := by
  cases hc : pyEndsWith s t2 with
  | false => rfl
  | true =>
    have e1 := pyEndsWith_getLast? s t1 h1 hne1
    have e2 := pyEndsWith_getLast? s t2 hc hne2
    exact absurd (e1.symm.trans e2) hl

/-- C5: for every record, the triples synthesized by `make_example2` and
`make_example3` are never identical: they differ in the Japanese sentence,
or (for the one shared `ください` template) in the English sentence. -/
theorem non_collision (row : Row) : make_example2 row ≠ make_example3 row := by
  cases hsp : specials.lookup row.japanese with
  | some v =>
    rw [ex2_special row v hsp]
    have hmemv := lookup_mem specials row.japanese v hsp
    simp only [specials, List.mem_cons, List.not_mem_nil, or_false, Prod.mk.injEq] at hmemv
    rcases hmemv with ⟨h1, h2⟩ | ⟨h1, h2⟩ | ⟨h1, h2⟩ | ⟨h1, h2⟩ | ⟨h1, h2⟩ | ⟨h1, h2⟩ <;>
      · have hp3 : (pyEndsWith row.deck "meeting_phrases" &&
            pyIn "させてください" row.japanese) = false := by
          rw [h1]
          simp +decide
        have hk3 : pyEndsWith row.japanese "ください" = false := by rw [h1]; decide
        have hs3 : pyEndsWith row.japanese "します" = false := by rw [h1]; decide
        cases hm : pyEndsWith row.deck "meeting_phrases" with
        | true =>
          have hn3 : ¬ row.japanese = "念のため" := by rw [h1]; decide
          rw [ex3_m row hp3 hk3 hs3 hm hn3, h2, h1]
          exact const_ne_runFrames _ framesM _ _ _ _ (by decide) (by decide)
        | false =>
          rw [ex3_t row hp3 hk3 hs3 hm, h2, h1]
          exact const_ne_runFrames _ framesT _ _ _ _ (by decide) (by decide)
  | none =>
  cases hph : pyIn "〜" row.japanese with
  | true =>
    have hmem : '〜' ∈ row.japanese.data := pyIn_single_mem rfl _ hph
    obtain ⟨f, seed, hne, _, _, _, heq⟩ := ex3_run row
    rw [heq]
    cases hy : pyIn "よろしいでしょうか" row.japanese with
    | true =>
      rw [ex2_ph_yoroshii row hsp hph hy]
      exact notmem_ne_runFrames '〜' _ f seed _ _ _ hne hmem (by decide)
    | false =>
    cases hnn : pyIn "という認識です" row.japanese with
    | true =>
      rw [ex2_ph_ninshiki row hsp hph hy hnn]
      exact notmem_ne_runFrames '〜' _ f seed _ _ _ hne hmem (by decide)
    | false =>
      rw [ex2_ph_generic row hsp hph hy hnn]
      refine notmem_ne_runFrames '〜' _ f seed _ _ _ hne hmem ?_
      intro hc
      rw [String.data_append] at hc
      rcases List.mem_append.1 hc with hc | hc
      · exact pyReplace_single_not_mem rfl row.japanese "この点" (by decide) hc
      · exact absurd hc (by decide)
  | false =>
  cases hq : (pyEndsWith row.japanese "は" &&
      (pyIn "?" row.english || pyIn "evidence" (pyLower row.english))) with
  | true =>
    rw [ex2_q1 row hsp hph hq]
    have hq1 : pyEndsWith row.japanese "は" = true := by
      rw [Bool.and_eq_true] at hq
      exact hq.1
    have hk3 : pyEndsWith row.japanese "ください" = false :=
      ends_conflict hq1 (by decide) (by decide) (by decide)
    have hs3 : pyEndsWith row.japanese "します" = false :=
      ends_conflict hq1 (by decide) (by decide) (by decide)
    have hjlast : row.japanese.data.getLast? = some 'は' :=
      (pyEndsWith_single rfl _).1 hq1
    cases hp3 : (pyEndsWith row.deck "meeting_phrases" &&
        pyIn "させてください" row.japanese) with
    | true =>
      rw [ex3_mperm row hp3]
      exact fixedpair_ne_runFrames ("", "ありますか。") _ _ framesMperm _ _ _ _
        (by decide) (by decide)
    | false =>
    cases hm : pyEndsWith row.deck "meeting_phrases" with
    | true =>
      have hn3 : ¬ row.japanese = "念のため" := by
        intro h
        rw [h] at hjlast
        exact absurd hjlast (by decide)
      rw [ex3_m row hp3 hk3 hs3 hm hn3]
      exact fixedpair_ne_runFrames ("", "ありますか。") _ _ framesM _ _ _ _
        (by decide) (by decide)
    | false =>
      rw [ex3_t row hp3 hk3 hs3 hm]
      exact fixedpair_ne_runFrames ("", "ありますか。") _ _ framesT _ _ _ _
        (by decide) (by decide)
  | false =>
  cases hv1 : pyEndsWith row.japanese "します" with
  | true =>
    rw [ex2_v1 row hsp hph hq hv1]
    have hk3 : pyEndsWith row.japanese "ください" = false :=
      ends_conflict hv1 (by decide) (by decide) (by decide)
    cases hp3 : (pyEndsWith row.deck "meeting_phrases" &&
        pyIn "させてください" row.japanese) with
    | true =>
      rw [ex3_mperm row hp3]
      exact runFrames_ne_jp framesV1 framesMperm _ _ _ _ _ _ _ (by decide) (by decide)
        (by decide)
    | false =>
      rw [ex3_suru row hp3 hk3 hv1]
      exact runFrames_ne_jp framesV1 framesSuru _ _ _ _ _ _ _ (by decide) (by decide)
        (by decide)
  | false =>
  cases hv2 : pyEndsWith row.japanese "ください" with
  | true =>
    rw [ex2_v2 row hsp hph hq hv1 hv2]
    cases hp3 : (pyEndsWith row.deck "meeting_phrases" &&
        pyIn "させてください" row.japanese) with
    | true =>
      rw [ex3_mperm row hp3]
      exact runFrames_ne_jp framesV2 framesMperm _ _ _ _ _ _ _ (by decide) (by decide)
        (by decide)
    | false =>
      rw [ex3_kudasai row hp3 hv2]
      exact runFrames_ne_jpen framesV2 framesKudasai _ _ _ _ _ _ (by decide) (by decide)
        (by decide)
  | false =>
  cases hv3 : (pyEndsWith row.deck "meeting_phrases" &&
      (row.japanese == "念のため" || row.japanese == "追加で")) with
  | true =>
    rw [ex2_v3 row hsp hph hq hv1 hv2 hv3]
    rw [Bool.and_eq_true] at hv3
    obtain ⟨hm, hjp2⟩ := hv3
    have hp3 : (pyEndsWith row.deck "meeting_phrases" &&
        pyIn "させてください" row.japanese) = false := by
      rcases Bool.or_eq_true_iff.1 hjp2 with h | h <;>
        · rw [hm, eq_of_beq h]
          decide
    by_cases hn : row.japanese = "念のため"
    · rw [ex3_nen row hp3 hv2 hv1 hm hn]
      exact runFrames_ne_jp framesV3 framesNen _ _ _ _ _ _ _ (by decide) (by decide)
        (by decide)
    · rw [ex3_m row hp3 hv2 hv1 hm hn]
      exact runFrames_ne_jp framesV3 framesM _ _ _ _ _ _ _ (by decide) (by decide)
        (by decide)
  | false =>
  cases hv4 : (pyEndsWith row.japanese "か" || pyEndsWith (pyStrip row.english) "?") with
  | true =>
    rw [ex2_v4 row hsp hph hq hv1 hv2 hv3 hv4]
    obtain ⟨f, seed, hne, hsuf, _, _, heq⟩ := ex3_run row
    rw [heq]
    refine last_ne_runFrames _ f seed _ _ _ hne ?_ hsuf
    rcases Bool.or_eq_true_iff.1 (questionOut_post row).1 with h | h
    · exact Or.inl ((pyEndsWith_single rfl _).1 h)
    · exact Or.inr ((pyEndsWith_single rfl _).1 h)
  | false =>
  cases hv5 : pyEndsWith row.japanese "です" with
  | true =>
    rw [ex2_v5 row hsp hph hq hv1 hv2 hv3 hv4 hv5]
    cases hp3 : (pyEndsWith row.deck "meeting_phrases" &&
        pyIn "させてください" row.japanese) with
    | true =>
      rw [ex3_mperm row hp3]
      exact runFrames_ne_jp framesV5 framesMperm _ _ _ _ _ _ _ (by decide) (by decide)
        (by decide)
    | false =>
    cases hm : pyEndsWith row.deck "meeting_phrases" with
    | true =>
      have hjlast : row.japanese.data.getLast? = some 'す' := by
        have := pyEndsWith_getLast? row.japanese "です" hv5 (by decide)
        rw [this]
        rfl
      have hn3 : ¬ row.japanese = "念のため" := by
        intro h
        rw [h] at hjlast
        exact absurd hjlast (by decide)
      rw [ex3_m row hp3 hv2 hv1 hm hn3]
      exact runFrames_ne_jp framesV5 framesM _ _ _ _ _ _ _ (by decide) (by decide)
        (by decide)
    | false =>
      rw [ex3_t row hp3 hv2 hv1 hm]
      exact runFrames_ne_jp framesV5 framesT _ _ _ _ _ _ _ (by decide) (by decide)
        (by decide)
  | false =>
  cases hm : pyEndsWith row.deck "meeting_phrases" with
  | true =>
    rw [ex2_m1 row hsp hph hq hv1 hv2 hv3 hv4 hv5 hm]
    cases hin : pyIn "させてください" row.japanese with
    | true =>
      have hp3 : (pyEndsWith row.deck "meeting_phrases" &&
          pyIn "させてください" row.japanese) = true := by rw [hm, hin]; rfl
      rw [ex3_mperm row hp3]
      exact runFrames_ne_jp framesM1 framesMperm _ _ _ _ _ _ _ (by decide) (by decide)
        (by decide)
    | false =>
      have hp3 : (pyEndsWith row.deck "meeting_phrases" &&
          pyIn "させてください" row.japanese) = false := by rw [hm, hin]; rfl
      have hn3 : ¬ row.japanese = "念のため" := by
        intro h
        rw [hm, h] at hv3
        simpa using hv3
      rw [ex3_m row hp3 hv2 hv1 hm hn3]
      exact runFrames_ne_jp framesM1 framesM _ _ _ _ _ _ _ (by decide) (by decide)
        (by decide)
  | false =>
    rw [ex2_t1 row hsp hph hq hv1 hv2 hv3 hv4 hv5 hm]
    have hp3 : (pyEndsWith row.deck "meeting_phrases" &&
        pyIn "させてください" row.japanese) = false := by rw [hm]; rfl
    rw [ex3_t row hp3 hv2 hv1 hm]
    exact runFrames_ne_jp framesT1 framesT _ _ _ _ _ _ _ (by decide) (by decide)
      (by decide)

end JpVocab
